import Mathlib

/-!
Verification of the folio_data_import bulk-synchronization engine
(`MARCDataImport.py`, `UserImport.py`) against its specification.

The Python source is shallowly embedded: pure computations become Lean
functions, in-place dict mutation becomes explicit state passing over
association lists with Python-dict semantics (first-occurrence lookup,
replace-in-place on assignment, insertion order preserved), and code paths
that raise uncaught exceptions return `Except`.
-/

set_option maxHeartbeats 1000000

namespace FolioDataImport

/-! ## MARC batching (`MARCImportJob.process_records` / `create_batch_payload`) -/

/-- A record batch payload as built by `MARCImportJob.create_batch_payload`:
`size` is `len(initialRecords)`, `counter` and `total` mirror
`recordsMetadata.counter` / `recordsMetadata.total`, and `last` mirrors
`recordsMetadata.last`. -/
structure BatchPayload where
  size : Nat
  counter : Nat
  total : Nat
  last : Bool
deriving Repr, DecidableEq

/-- Embedding of `MARCImportJob.create_batch_payload(counter, total_records,
is_last)`; `batchLen` is `len(self.record_batch)` and `errorRecords` is
`self.error_records` (Python `-` on these nonnegative counters is `Nat.sub`
here; on the all-success path `errorRecords` stays `0`). -/
def create_batch_payload (batchLen counter totalRecords errorRecords : Nat)
    (isLast : Bool) : BatchPayload :=
  { size := batchLen
    counter := counter - errorRecords
    total := totalRecords - errorRecords
    last := isLast }

/-- The record loop of `MARCImportJob.process_records` for a single stream of
valid records on the all-submissions-succeed path (`error_records = 0`
throughout).  `rem` counts the records not yet read, `counter` the records
appended so far, `batchLen` is `len(self.record_batch)`.  A full batch is
flushed at the top of the loop iteration that reads the next record
(`if len(self.record_batch) == self.batch_size`), with
`is_last = ((counter - 0) == (total - 0))`; after the stream is exhausted the
remaining partial batch is flushed (`if self.record_batch:`). -/
def process_records_go (B total : Nat) : Nat → Nat → Nat → List BatchPayload
  | 0, counter, batchLen =>
      if batchLen = 0 then []
      else [create_batch_payload batchLen counter total 0 (decide (counter = total))]
  | rem + 1, counter, batchLen =>
      if batchLen = B then
        create_batch_payload B counter total 0 (decide (counter = total))
          :: process_records_go B total rem (counter + 1) 1
      else process_records_go B total rem (counter + 1) (batchLen + 1)

/-- Embedding of `MARCImportJob.process_records` over a stream of `N` valid
records with batch size `B`: the read-ahead count `total_records` equals `N`
and the state starts with an empty `record_batch` and `counter = 0`. -/
def process_records (B N : Nat) : List BatchPayload :=
  process_records_go B N N 0 0

theorem process_records_go_length (B N : Nat) (hB : 1 ≤ B) :
    ∀ rem counter batchLen : Nat, batchLen ≤ B →
      (process_records_go B N rem counter batchLen).length
        = (batchLen + rem + B - 1) / B := by
  intro rem
  induction rem with
  | zero =>
    intro c bl hbl
    by_cases h : bl = 0
    · rw [process_records_go, if_pos h, List.length_nil, h,
        Nat.div_eq_of_lt (by omega)]
    · rw [process_records_go, if_neg h, List.length_singleton]
      have h1 : bl + 0 + B - 1 = (bl - 1) + B := by omega
      rw [h1, Nat.add_div_right _ (by omega), Nat.div_eq_of_lt (by omega)]
  | succ r ih =>
    intro c bl hbl
    by_cases h : bl = B
    · rw [process_records_go, if_pos h, List.length_cons, ih (c + 1) 1 (by omega)]
      have h2 : bl + (r + 1) + B - 1 = (1 + r + B - 1) + B := by omega
      rw [h2, Nat.add_div_right _ (by omega)]
    · rw [process_records_go, if_neg h, ih (c + 1) (bl + 1) (by omega)]
      have h3 : bl + (r + 1) + B - 1 = bl + 1 + r + B - 1 := by omega
      rw [h3]

theorem process_records_go_shape (B N : Nat) :
    ∀ rem counter batchLen : Nat, 1 ≤ batchLen → batchLen ≤ B →
      counter + rem = N →
      ∃ mids lastP, process_records_go B N rem counter batchLen = mids ++ [lastP] ∧
        (∀ p ∈ mids, p.size = B ∧ p.last = false) ∧ lastP.last = true := by
  intro rem
  induction rem with
  | zero =>
    intro c bl h1 h2 h3
    refine ⟨[], create_batch_payload bl c N 0 (decide (c = N)), ?_, ?_, ?_⟩
    · rw [process_records_go, if_neg (by omega : ¬ bl = 0), List.nil_append]
    · intro p hp; cases hp
    · have hc : c = N := by omega
      simp [create_batch_payload, hc]
  | succ r ih =>
    intro c bl h1 h2 h3
    by_cases h : bl = B
    · obtain ⟨mids, lastP, heq, hmids, hlast⟩ := ih (c + 1) 1 le_rfl (by omega) (by omega)
      refine ⟨create_batch_payload B c N 0 (decide (c = N)) :: mids, lastP, ?_, ?_, hlast⟩
      · rw [process_records_go, if_pos h, heq, List.cons_append]
      · intro p hp
        rcases List.mem_cons.mp hp with rfl | hp
        · refine ⟨rfl, ?_⟩
          simp [create_batch_payload, show ¬ c = N by omega]
        · exact hmids p hp
    · obtain ⟨mids, lastP, heq, hmids, hlast⟩ := ih (c + 1) (bl + 1) (by omega) (by omega) (by omega)
      refine ⟨mids, lastP, ?_, hmids, hlast⟩
      rw [process_records_go, if_neg h, heq]

/-- C1.  For a stream of `N ≥ 1` valid records and batch size `B ≥ 1`, the
number of batch payloads submitted via `process_record_batch` is `⌈N/B⌉`,
every submitted batch except the last carries exactly `B` records, and the
last submitted batch — and only it — carries `recordsMetadata.last = true`. -/
theorem marc_batch_emission_C1 (B N : Nat) (hB : 1 ≤ B) (hN : 1 ≤ N) :
    (process_records B N).length = (N + B - 1) / B ∧
    ∃ mids lastP, process_records B N = mids ++ [lastP] ∧
      (∀ p ∈ mids, p.size = B ∧ p.last = false) ∧ lastP.last = true := by
  constructor
  · have h := process_records_go_length B N hB N 0 0 (by omega)
    simpa [process_records] using h
  · obtain ⟨n, rfl⟩ : ∃ n, N = n + 1 := ⟨N - 1, by omega⟩
    have hstep : process_records B (n + 1) = process_records_go B (n + 1) n 1 1 := by
      simp only [process_records, process_records_go, if_neg (by omega : ¬ (0 : Nat) = B)]
    rw [hstep]
    exact process_records_go_shape B (n + 1) n 1 1 le_rfl hB (by omega)

/-- Witness for C1 at `B = 3`, `N = 7`. -/
theorem marc_batch_emission_C1_witness :
    ((1 : Nat) ≤ 3 ∧ (1 : Nat) ≤ 7) ∧
    ((process_records 3 7).length = (7 + 3 - 1) / 3 ∧
      ∃ mids lastP, process_records 3 7 = mids ++ [lastP] ∧
        (∀ p ∈ mids, p.size = 3 ∧ p.last = false) ∧ lastP.last = true) :=
  ⟨⟨by decide, by decide⟩, marc_batch_emission_C1 3 7 (by decide) (by decide)⟩

/-! ## Batch submission error handling (`MARCImportJob.process_record_batch`) -/

/-- The mutable state touched by `MARCImportJob.process_record_batch`:
`total_records_sent`, `record_batch`, the sent progress bar (position `n` and
its `total`, an `Int` since the code subtracts from it), `error_records`, and
the contents written to the failed-batches file. -/
structure MarcBatchState where
  total_records_sent : Nat
  record_batch : List String
  pbar_sent_n : Nat
  pbar_sent_total : Int
  error_records : Nat
  failed_batches_file : List String
deriving Repr, DecidableEq

/-- The `for record in self.record_batch:` loop of the non-recoverable error
branch of `process_record_batch`.  In the source, *all three* statements —
the file write, `self.error_records += len(self.record_batch)` and
`self.pbar_sent.total = self.pbar_sent.total - len(self.record_batch)` — sit
inside the per-record loop body; `batchLen` is `len(self.record_batch)`,
which is unchanged while the loop runs. -/
def failed_batch_loop (batchLen : Nat) : List String → MarcBatchState → MarcBatchState
  | [], st => st
  | r :: rs, st =>
      failed_batch_loop batchLen rs
        { st with
            failed_batches_file := st.failed_batches_file ++ [r]
            error_records := st.error_records + batchLen
            pbar_sent_total := st.pbar_sent_total - (batchLen : Int) }

/-- Embedding of `MARCImportJob.process_record_batch` for a submission that
received an HTTP response with status `status` (the connect/read-timeout
retry path receives no response and is not reached here).
`raise_for_status` raises exactly for statuses `≥ 400`; a 500/422 error is
treated like success except that the records are counted without the batch
having been accepted; any other error status routes through the
failed-batch loop and then clears `record_batch`. -/
def process_record_batch (st : MarcBatchState) (status : Nat) : MarcBatchState :=
  if status < 400 then
    { st with
        total_records_sent := st.total_records_sent + st.record_batch.length
        record_batch := []
        pbar_sent_n := st.pbar_sent_n + st.record_batch.length }
  else if status = 500 ∨ status = 422 then
    { st with
        total_records_sent := st.total_records_sent + st.record_batch.length
        record_batch := []
        pbar_sent_n := st.pbar_sent_n + st.record_batch.length }
  else
    { failed_batch_loop st.record_batch.length st.record_batch st with record_batch := [] }

/-- C5.  A batch submission answered with HTTP 500 or 422 counts its records
as sent (`total_records_sent` and the sent progress bar advance by the batch
size), writes nothing to the failed-batch archive, leaves `error_records`
and the expected total untouched, does not retry, and clears the batch so
the run continues. -/
theorem recoverable_batch_C5 (st : MarcBatchState) (status : Nat)
    (h : status = 500 ∨ status = 422) :
    (process_record_batch st status).total_records_sent
        = st.total_records_sent + st.record_batch.length ∧
    (process_record_batch st status).pbar_sent_n
        = st.pbar_sent_n + st.record_batch.length ∧
    (process_record_batch st status).failed_batches_file = st.failed_batches_file ∧
    (process_record_batch st status).error_records = st.error_records ∧
    (process_record_batch st status).pbar_sent_total = st.pbar_sent_total ∧
    (process_record_batch st status).record_batch = [] := by
  have hge : ¬ status < 400 := by omega
  rw [process_record_batch, if_neg hge, if_pos h]
  exact ⟨rfl, rfl, rfl, rfl, rfl, rfl⟩

/-- Witness for C5: a two-record batch answered with HTTP 500. -/
theorem recoverable_batch_C5_witness :
    ((500 : Nat) = 500 ∨ (500 : Nat) = 422) ∧
    ((process_record_batch ⟨3, ["r1", "r2"], 3, 10, 0, []⟩ 500).total_records_sent
        = 3 + (["r1", "r2"] : List String).length ∧
      (process_record_batch ⟨3, ["r1", "r2"], 3, 10, 0, []⟩ 500).pbar_sent_n
        = 3 + (["r1", "r2"] : List String).length ∧
      (process_record_batch ⟨3, ["r1", "r2"], 3, 10, 0, []⟩ 500).failed_batches_file = [] ∧
      (process_record_batch ⟨3, ["r1", "r2"], 3, 10, 0, []⟩ 500).error_records = 0 ∧
      (process_record_batch ⟨3, ["r1", "r2"], 3, 10, 0, []⟩ 500).pbar_sent_total = 10 ∧
      (process_record_batch ⟨3, ["r1", "r2"], 3, 10, 0, []⟩ 500).record_batch = []) :=
  ⟨Or.inl rfl, recoverable_batch_C5 ⟨3, ["r1", "r2"], 3, 10, 0, []⟩ 500 (Or.inl rfl)⟩

/-- C6 (code bug).  For a non-recoverable submission failure the source
increments `error_records` and decrements the sent progress-bar total once
per record *inside* the per-record loop, so a failed batch of 2 records
raises `error_records` by `2 * 2 = 4` and lowers the expected total by 4,
where the specification says both should move by the batch size (2).  The
records themselves are each archived exactly once and the run continues, as
claimed. -/
theorem failed_batch_C6_bug :
    (process_record_batch ⟨0, ["r1", "r2"], 0, 10, 0, []⟩ 400).failed_batches_file
        = ["r1", "r2"] ∧
    (process_record_batch ⟨0, ["r1", "r2"], 0, 10, 0, []⟩ 400).error_records = 4 ∧
    (4 : Nat) ≠ 2 ∧
    (process_record_batch ⟨0, ["r1", "r2"], 0, 10, 0, []⟩ 400).pbar_sent_total = 10 - 4 ∧
    (process_record_batch ⟨0, ["r1", "r2"], 0, 10, 0, []⟩ 400).record_batch = [] := by
  refine ⟨rfl, rfl, by decide, ?_, rfl⟩
  decide

/-! ## Import profile resolution (`MARCImportJob.import_profile` /
`import_marc_file`) -/

/-- An entry of the remote job-profile catalog
(`/data-import-profiles/jobProfiles`). -/
structure JobProfile where
  name : String
  id : String
deriving Repr, DecidableEq

/-- Exceptions surfaced by the embedded MARC import-job code paths.  The
source defines no `ProfileNotFoundError` anywhere; the constructor is
declared only so that the claimed failure mode can be stated and refuted. -/
inductive MarcJobError where
  | indexError
  | profileNotFoundError
deriving Repr, DecidableEq

/-- Embedding of the `MARCImportJob.import_profile` cached property: it
filters the catalog by exact name equality and takes element `[0]`, which
raises `IndexError` when no profile matches. -/
def import_profile (catalog : List JobProfile) (profileName : String) :
    Except MarcJobError JobProfile :=
  match catalog.filter (fun p => p.name == profileName) with
  | [] => .error .indexError
  | p :: _ => .ok p

/-- Remote side effects of the opening of `MARCImportJob.import_marc_file`. -/
inductive MarcEvent where
  | jobExecutionCreated
  | jobProfileBound
deriving Repr, DecidableEq

/-- Embedding of the start of `MARCImportJob.import_marc_file`:
`create_folio_import_job()` runs first (creating the remote job execution),
then `set_job_profile()` resolves `self.import_profile`; a failed resolution
aborts after the job execution already exists. -/
def import_marc_file_start (catalog : List JobProfile) (profileName : String) :
    List MarcEvent × Option MarcJobError :=
  match import_profile catalog profileName with
  | .ok _ => ([.jobExecutionCreated, .jobProfileBound], none)
  | .error e => ([.jobExecutionCreated], some e)

/-- Counterexample to C7: with an empty profile catalog and profile name
`"missing"`, the run fails with `IndexError` — not with a
`ProfileNotFoundError`, which the source never defines or raises — and the
remote job execution has already been created before the failure. -/
theorem profile_not_found_C7_cex :
    (import_marc_file_start [] "missing").2 = some .indexError ∧
    some MarcJobError.indexError ≠ some MarcJobError.profileNotFoundError ∧
    MarcEvent.jobExecutionCreated ∈ (import_marc_file_start [] "missing").1 := by
  refine ⟨rfl, by decide, ?_⟩
  decide

/-- C7 as amended.  If no profile in the catalog has a name exactly equal to
the configured name, the run fails with an `IndexError` raised while
resolving the import profile during profile binding, and this failure occurs
*after* the remote job execution has been created (exactly one job execution
exists, and no profile was bound). -/
theorem profile_not_found_C7_amended (catalog : List JobProfile) (name : String)
    (h : ∀ p ∈ catalog, p.name ≠ name) :
    import_marc_file_start catalog name = ([.jobExecutionCreated], some .indexError) := by
  have hfil : catalog.filter (fun p => p.name == name) = [] := by
    rw [List.filter_eq_nil_iff]
    intro p hp
    simpa using h p hp
  rw [import_marc_file_start, import_profile, hfil]

/-- Witness for the amended C7 on a concrete one-profile catalog without an
exact match. -/
theorem profile_not_found_C7_amended_witness :
    (∀ p ∈ [JobProfile.mk "Default job profile" "p1"], p.name ≠ "missing") ∧
    import_marc_file_start [JobProfile.mk "Default job profile" "p1"] "missing"
      = ([.jobExecutionCreated], some .indexError) :=
  ⟨by decide,
    profile_not_found_C7_amended [JobProfile.mk "Default job profile" "p1"] "missing"
      (by decide)⟩

/-! ## JSON documents with Python dict semantics

`EntityRecord`s (user, request preference, …), job summaries and all other
loosely structured key/value documents are embedded as association lists of
string keys.  Lookup returns the first matching entry, assignment replaces
in place (keeping insertion order) or appends, `pop` removes; this matches
CPython dict behaviour, whose keys are unique and insertion-ordered. -/

/-- A JSON value. -/
inductive JVal where
  | str (s : String)
  | bool (b : Bool)
  | num (n : Int)
  | obj (fields : List (String × JVal))
  | arr (items : List JVal)
deriving Repr, Inhabited

/-- A JSON object / Python dict body. -/
abbrev Doc := List (String × JVal)

/-- Python `d[k]` / `d.get(k)`: first entry with key `k`. -/
def dictGet : Doc → String → Option JVal
  | [], _ => none
  | (k', v) :: rest, k => if k' = k then some v else dictGet rest k

/-- Python `d[k] = v`: replace in place, else append. -/
def dictSet : Doc → String → JVal → Doc
  | [], k, v => [(k, v)]
  | (k', v') :: rest, k, v =>
      if k' = k then (k', v) :: rest else (k', v') :: dictSet rest k v

/-- Python `d.pop(k, default)`: the removed value (if any) and the remaining
dict. -/
def dictPop : Doc → String → Option JVal × Doc
  | [], _ => (none, [])
  | (k', v) :: rest, k =>
      if k' = k then (some v, rest)
      else
        let p := dictPop rest k
        (p.1, (k', v) :: p.2)

/-- Python `d.update(other)`: assign every entry of `other` in order. -/
def dictUpdate (d other : Doc) : Doc :=
  other.foldl (fun acc p => dictSet acc p.1 p.2) d

/-- Python truthiness of a JSON value (`""`, `0`, `False`, `[]` and the empty
object are falsy). -/
def JVal.truthy : JVal → Bool
  | .str s => !(s == "")
  | .bool b => b
  | .num n => !(n == 0)
  | .obj fields => !fields.isEmpty
  | .arr items => !items.isEmpty

/-- Python `a or b` on JSON values. -/
def pyOr (a b : JVal) : JVal := if a.truthy then a else b

/-- Whether a value is a Python dict. -/
def JVal.isObj : JVal → Bool
  | .obj _ => true
  | _ => false

/-- The keys of a document are pairwise distinct (always true of a dict that
came from JSON parsing). -/
def topNodup (d : Doc) : Prop := (d.map Prod.fst).Nodup

mutual

/-- Structural equality of JSON values, as used by Python `==` / `in`. -/
def JVal.beq : JVal → JVal → Bool
  | .str a, .str b => a == b
  | .bool a, .bool b => a == b
  | .num a, .num b => a == b
  | .obj a, .obj b => JVal.beqFields a b
  | .arr a, .arr b => JVal.beqItems a b
  | _, _ => false

/-- Equality of object field lists. -/
def JVal.beqFields : List (String × JVal) → List (String × JVal) → Bool
  | [], [] => true
  | (k, v) :: r, (k', v') :: r' => k == k' && JVal.beq v v' && JVal.beqFields r r'
  | _, _ => false

/-- Equality of array item lists. -/
def JVal.beqItems : List JVal → List JVal → Bool
  | [], [] => true
  | v :: r, v' :: r' => JVal.beq v v' && JVal.beqItems r r'
  | _, _ => false

end

/-- Python `x in l` for a list of JSON values. -/
def jvalMem (x : JVal) (l : List JVal) : Bool := l.any (fun y => JVal.beq x y)

/-! ### Association-list lemmas for the dict embedding -/

/-- The key list of a document. -/
def keys (d : Doc) : List String := d.map Prod.fst

theorem dictGet_eq_none_iff {d : Doc} {k : String} :
    dictGet d k = none ↔ k ∉ keys d := by
  induction d with
  | nil => simp [dictGet, keys]
  | cons p rest ih =>
    obtain ⟨k', v⟩ := p
    by_cases h : k' = k
    · subst h
      simp [dictGet, keys]
    · simp [dictGet, keys, h, ih, Ne.symm h]

theorem dictGet_isSome_of_mem {d : Doc} {k : String} (h : k ∈ keys d) :
    (dictGet d k).isSome := by
  rcases he : dictGet d k with _ | v
  · exact absurd (dictGet_eq_none_iff.mp he) (by simpa using h)
  · rfl

theorem dictGet_dictSet_self (d : Doc) (k : String) (v : JVal) :
    dictGet (dictSet d k v) k = some v := by
  induction d with
  | nil => simp [dictSet, dictGet]
  | cons p rest ih =>
    obtain ⟨k', v'⟩ := p
    by_cases h : k' = k
    · simp [dictSet, dictGet, h]
    · simp [dictSet, dictGet, h, ih]

theorem dictGet_dictSet_ne (d : Doc) {k k' : String} (v : JVal) (h : k' ≠ k) :
    dictGet (dictSet d k v) k' = dictGet d k' := by
  induction d with
  | nil => simp [dictSet, dictGet, Ne.symm h]
  | cons p rest ih =>
    obtain ⟨k₀, v₀⟩ := p
    by_cases h₀ : k₀ = k
    · subst h₀
      simp [dictSet, dictGet, Ne.symm h]
    · simp only [dictSet, if_neg h₀, dictGet]
      by_cases h₁ : k₀ = k'
      · simp [h₁]
      · simp [h₁, ih]

theorem mem_keys_dictSet {d : Doc} {k m : String} {v : JVal} :
    m ∈ keys (dictSet d k v) ↔ m ∈ keys d ∨ m = k := by
  induction d with
  | nil => simp [dictSet, keys]
  | cons p rest ih =>
    obtain ⟨k₀, v₀⟩ := p
    by_cases h₀ : k₀ = k
    · subst h₀
      rw [dictSet, if_pos rfl]
      simp only [keys, List.map_cons, List.mem_cons]
      tauto
    · rw [dictSet, if_neg h₀]
      simp only [keys, List.map_cons, List.mem_cons] at ih ⊢
      rw [ih]
      tauto

theorem topNodup_dictSet {d : Doc} {k : String} {v : JVal} (h : topNodup d) :
    topNodup (dictSet d k v) := by
  induction d with
  | nil => simp [dictSet, topNodup]
  | cons p rest ih =>
    obtain ⟨k₀, v₀⟩ := p
    simp only [topNodup, List.map_cons, List.nodup_cons] at h
    by_cases h₀ : k₀ = k
    · simp only [topNodup, dictSet, if_pos h₀, List.map_cons, List.nodup_cons]
      exact h
    · simp only [topNodup, dictSet, if_neg h₀, List.map_cons, List.nodup_cons]
      refine ⟨?_, ih h.2⟩
      intro hmem
      rcases mem_keys_dictSet.mp hmem with hmem | rfl
      · exact h.1 hmem
      · exact h₀ rfl

theorem dictPop_fst (d : Doc) (k : String) : (dictPop d k).1 = dictGet d k := by
  induction d with
  | nil => simp [dictPop, dictGet]
  | cons p rest ih =>
    obtain ⟨k₀, v₀⟩ := p
    by_cases h₀ : k₀ = k
    · simp [dictPop, dictGet, h₀]
    · simp [dictPop, dictGet, h₀, ih]

theorem dictGet_dictPop_ne (d : Doc) {k k' : String} (h : k' ≠ k) :
    dictGet (dictPop d k).2 k' = dictGet d k' := by
  induction d with
  | nil => simp [dictPop, dictGet]
  | cons p rest ih =>
    obtain ⟨k₀, v₀⟩ := p
    by_cases h₀ : k₀ = k
    · subst h₀
      simp [dictPop, dictGet, Ne.symm h]
    · simp only [dictPop, if_neg h₀, dictGet]
      by_cases h₁ : k₀ = k'
      · simp [h₁]
      · simp [h₁, ih]

theorem mem_keys_dictPop {d : Doc} {k m : String} (h : m ∈ keys (dictPop d k).2) :
    m ∈ keys d := by
  induction d with
  | nil => simp [dictPop, keys] at h
  | cons p rest ih =>
    obtain ⟨k₀, v₀⟩ := p
    by_cases h₀ : k₀ = k
    · simp only [dictPop, if_pos h₀] at h
      simp only [keys, List.map_cons, List.mem_cons]
      exact Or.inr h
    · simp only [dictPop, if_neg h₀, keys, List.map_cons, List.mem_cons] at h ⊢
      rcases h with rfl | h
      · exact Or.inl rfl
      · exact Or.inr (ih h)

theorem topNodup_dictPop {d : Doc} {k : String} (h : topNodup d) :
    topNodup (dictPop d k).2 := by
  induction d with
  | nil => simpa [dictPop] using h
  | cons p rest ih =>
    obtain ⟨k₀, v₀⟩ := p
    simp only [topNodup, List.map_cons, List.nodup_cons] at h
    by_cases h₀ : k₀ = k
    · simp only [topNodup, dictPop, if_pos h₀]
      exact h.2
    · simp only [topNodup, dictPop, if_neg h₀, List.map_cons, List.nodup_cons]
      exact ⟨fun hm => h.1 (mem_keys_dictPop hm), ih h.2⟩

theorem dictGet_dictPop_self {d : Doc} {k : String} (h : topNodup d) :
    dictGet (dictPop d k).2 k = none := by
  induction d with
  | nil => simp [dictPop, dictGet]
  | cons p rest ih =>
    obtain ⟨k₀, v₀⟩ := p
    simp only [topNodup, List.map_cons, List.nodup_cons] at h
    by_cases h₀ : k₀ = k
    · subst h₀
      simp only [dictPop, if_pos rfl]
      exact dictGet_eq_none_iff.mpr h.1
    · simp only [dictPop, if_neg h₀, dictGet, if_neg h₀]
      exact ih h.2

theorem dictUpdate_nil (d : Doc) : dictUpdate d [] = d := rfl

theorem dictUpdate_cons (d : Doc) (k : String) (v : JVal) (rest : Doc) :
    dictUpdate d ((k, v) :: rest) = dictUpdate (dictSet d k v) rest := rfl

theorem dictGet_dictUpdate_of_none {u : Doc} {k : String} (h : dictGet u k = none) :
    ∀ d, dictGet (dictUpdate d u) k = dictGet d k := by
  induction u with
  | nil => intro d; rfl
  | cons p rest ih =>
    obtain ⟨k₀, v₀⟩ := p
    intro d
    rw [dictGet] at h
    by_cases h₀ : k₀ = k
    · rw [if_pos h₀] at h; cases h
    · rw [if_neg h₀] at h
      rw [dictUpdate_cons, ih h, dictGet_dictSet_ne _ _ (fun hh => h₀ hh.symm)]

theorem dictGet_dictUpdate_of_some {u : Doc} (hu : topNodup u) {k : String} {v : JVal}
    (h : dictGet u k = some v) : ∀ d, dictGet (dictUpdate d u) k = some v := by
  induction u with
  | nil => cases h
  | cons p rest ih =>
    obtain ⟨k₀, v₀⟩ := p
    intro d
    simp only [topNodup, List.map_cons, List.nodup_cons] at hu
    rw [dictGet] at h
    by_cases h₀ : k₀ = k
    · rw [if_pos h₀] at h
      cases h
      subst h₀
      have hnone : dictGet rest k₀ = none := dictGet_eq_none_iff.mpr hu.1
      rw [dictUpdate_cons, dictGet_dictUpdate_of_none hnone, dictGet_dictSet_self]
    · rw [if_neg h₀] at h
      rw [dictUpdate_cons]
      exact ih hu.2 h _

theorem topNodup_dictUpdate {d u : Doc} (h : topNodup d) : topNodup (dictUpdate d u) := by
  induction u generalizing d with
  | nil => exact h
  | cons p rest ih =>
    obtain ⟨k₀, v₀⟩ := p
    rw [dictUpdate_cons]
    exact ih (topNodup_dictSet h)

/-! ## Final job summary fetch (`MARCImportJob.get_job_summary`) -/

/-- `RETRY_TIMEOUT_START` from `MARCDataImport.py`. -/
def RETRY_TIMEOUT_START : Nat := 1

/-- `RETRY_TIMEOUT_RETRY_FACTOR` from `MARCDataImport.py`. -/
def RETRY_TIMEOUT_RETRY_FACTOR : Nat := 2

/-- The update of `self.current_retry_timeout` performed at the top of every
`get_job_summary` (and `get_job_status`) attempt: `None` becomes
`RETRY_TIMEOUT_START`, an existing timeout is multiplied by
`RETRY_TIMEOUT_RETRY_FACTOR`; the resulting value is the HTTP client timeout
used for that attempt. -/
def escalate_retry_timeout : Option Nat → Option Nat
  | none => some RETRY_TIMEOUT_START
  | some t => some (t * RETRY_TIMEOUT_RETRY_FACTOR)

/-- The outcome of one attempt to fetch the job summary: a successful
response body, a connect/read timeout (no response attached), or an
`HTTPStatusError` carrying the response status. -/
inductive FetchOutcome where
  | success (summary : Doc)
  | timeout
  | httpStatusError (status : Nat)

/-- Embedding of `MARCImportJob.get_job_summary`, driven by the stream of
attempt outcomes the server produces.  `none` means the outcome stream was
exhausted while the method was still retrying; `some (.ok s)` is a returned
summary; `some (.error code)` is a re-raised `HTTPStatusError`.  A timeout
always retries; a 502/504 status retries with the escalated backoff unless
`letSummaryFail` is set, in which case it returns the empty summary; any
other error status is re-raised. -/
def get_job_summary (letSummaryFail : Bool) (retryTimeout : Option Nat) :
    List FetchOutcome → Option (Except Nat Doc)
  | [] => none
  | outcome :: rest =>
    let rt := escalate_retry_timeout retryTimeout
    match outcome with
    | .success s => some (.ok s)
    | .timeout => get_job_summary letSummaryFail rt rest
    | .httpStatusError code =>
        if (code = 502 ∨ code = 504) ∧ ¬letSummaryFail then
          get_job_summary letSummaryFail rt rest
        else if (code = 502 ∨ code = 504) ∧ letSummaryFail then some (.ok [])
        else some (.error code)

/-- C9.  If the summary fetch fails with HTTP 502/504 and the
let-summary-fail flag is set, `get_job_summary` returns the empty summary
rather than aborting; without the flag the fetch is retried with the
escalating (doubling) backoff timeout; and any other HTTP error status is
re-raised to the caller under either flag value. -/
theorem job_summary_C9 (code : Nat) (hc : code = 502 ∨ code = 504)
    (other : Nat) (hother : ¬(other = 502 ∨ other = 504))
    (rt : Option Nat) (rest : List FetchOutcome) :
    get_job_summary true rt (.httpStatusError code :: rest) = some (.ok []) ∧
    get_job_summary false rt (.httpStatusError code :: rest)
        = get_job_summary false (escalate_retry_timeout rt) rest ∧
    (∀ t, escalate_retry_timeout (some t) = some (t * 2)) ∧
    (∀ lf, get_job_summary lf rt (.httpStatusError other :: rest)
        = some (.error other)) := by
  refine ⟨?_, ?_, fun t => rfl, fun lf => ?_⟩
  · rw [get_job_summary]
    rw [if_neg (fun h => h.2 rfl), if_pos ⟨hc, rfl⟩]
  · rw [get_job_summary]
    rw [if_pos ⟨hc, Bool.false_ne_true⟩]
  · rw [get_job_summary]
    rw [if_neg (fun h => hother h.1), if_neg (fun h => hother h.1)]

/-- Witness for C9 at `code = 502`, `other = 500`. -/
theorem job_summary_C9_witness :
    (((502 : Nat) = 502 ∨ (502 : Nat) = 504) ∧ ¬((500 : Nat) = 502 ∨ (500 : Nat) = 504)) ∧
    (get_job_summary true none (.httpStatusError 502 :: []) = some (.ok []) ∧
      get_job_summary false none (.httpStatusError 502 :: [])
          = get_job_summary false (escalate_retry_timeout none) [] ∧
      (∀ t, escalate_retry_timeout (some t) = some (t * 2)) ∧
      (∀ lf, get_job_summary lf none (.httpStatusError 500 :: [])
          = some (.error 500))) :=
  ⟨⟨by decide, by decide⟩, job_summary_C9 502 (by decide) 500 (by decide) none []⟩

/-! ## Outcome accounting (`UserImporter.create_or_update_user` /
`create_new_user`) -/

/-- The three terminal outcome counters of `self.logs`. -/
inductive UserOutcome where
  | created
  | updated
  | failed
deriving Repr, DecidableEq

/-- One increment of an outcome counter, recording whether the increment was
performed while holding `self.lock` (`async with self.lock:`). -/
structure CounterInc where
  counter : UserOutcome
  underLock : Bool
deriving Repr, DecidableEq

/-- Embedding of `UserImporter.create_new_user`: on HTTP success the
`created` counter is incremented inside `async with self.lock:`; on failure
`raise_for_status` raises before any increment. -/
def create_new_user_incs (httpOk : Bool) : Except Unit (List CounterInc) :=
  if httpOk then .ok [⟨.created, true⟩] else .error ()

/-- Embedding of the counter traffic of `UserImporter.create_or_update_user`
for one unit: `existingFound` says whether an existing user was matched and
`httpOk` whether the PUT/POST succeeded.  The `self.logs["updated"] += 1` and
`self.logs["failed"] += 1` statements in the source are executed *without*
acquiring `self.lock`; only the `created` increment inside `create_new_user`
is lock-protected. -/
def create_or_update_user_incs (existingFound httpOk : Bool) : List CounterInc :=
  if existingFound then
    if httpOk then [⟨.updated, false⟩] else [⟨.failed, false⟩]
  else
    match create_new_user_incs httpOk with
    | .ok incs => incs
    | .error _ => [⟨.failed, false⟩]

/-- Fold the per-unit increments of a run into the
`(created, updated, failed)` totals of `self.logs`. -/
def tallyCounters (units : List (Bool × Bool)) : Nat × Nat × Nat :=
  units.foldl
    (fun t u =>
      (create_or_update_user_incs u.1 u.2).foldl
        (fun t i =>
          match i.counter with
          | .created => (t.1 + 1, t.2.1, t.2.2)
          | .updated => (t.1, t.2.1 + 1, t.2.2)
          | .failed => (t.1, t.2.1, t.2.2 + 1))
        t)
    (0, 0, 0)

/-- Counterexample to C2: a unit that updates an existing user successfully
performs its single `updated` increment *without* holding the shared lock,
refuting the clause that every counter increment is performed under mutual
exclusion. -/
theorem outcome_accounting_C2_cex :
    create_or_update_user_incs true true = [⟨.updated, false⟩] ∧
    ∃ i ∈ create_or_update_user_incs true true, i.underLock = false := by
  exact ⟨rfl, ⟨.updated, false⟩, by decide, rfl⟩

theorem tallyCounters_go (units : List (Bool × Bool)) :
    ∀ t : Nat × Nat × Nat,
      ((units.foldl
        (fun t u =>
          (create_or_update_user_incs u.1 u.2).foldl
            (fun t i =>
              match i.counter with
              | .created => (t.1 + 1, t.2.1, t.2.2)
              | .updated => (t.1, t.2.1 + 1, t.2.2)
              | .failed => (t.1, t.2.1, t.2.2 + 1))
            t)
        t).1
      + (units.foldl
        (fun t u =>
          (create_or_update_user_incs u.1 u.2).foldl
            (fun t i =>
              match i.counter with
              | .created => (t.1 + 1, t.2.1, t.2.2)
              | .updated => (t.1, t.2.1 + 1, t.2.2)
              | .failed => (t.1, t.2.1, t.2.2 + 1))
            t)
        t).2.1
      + (units.foldl
        (fun t u =>
          (create_or_update_user_incs u.1 u.2).foldl
            (fun t i =>
              match i.counter with
              | .created => (t.1 + 1, t.2.1, t.2.2)
              | .updated => (t.1, t.2.1 + 1, t.2.2)
              | .failed => (t.1, t.2.1, t.2.2 + 1))
            t)
        t).2.2)
      = t.1 + t.2.1 + t.2.2 + units.length := by
  induction units with
  | nil => intro t; simp
  | cons u rest ih =>
    intro t
    obtain ⟨ef, ok⟩ := u
    rcases ef <;> rcases ok <;>
      · rw [List.foldl_cons, ih]
        simp [create_or_update_user_incs, create_new_user_incs]
        omega

/-- C2 as amended.  Every completed call to `create_or_update_user`
increments exactly one of the three outcome counters exactly once, so for
every run `created + updated + failed` equals the number of units processed
to completion; but only the `created` increment is performed under the
shared lock — the `updated` and `failed` increments are plain unguarded
read-modify-writes (which asyncio's single-threaded cooperative scheduling
keeps atomic, as there is no `await` between read and write). -/
theorem outcome_accounting_C2_amended (units : List (Bool × Bool)) :
    (∀ ef ok, (create_or_update_user_incs ef ok).length = 1) ∧
    (∀ ef ok, ∀ i ∈ create_or_update_user_incs ef ok,
      (i.underLock = true ↔ i.counter = .created)) ∧
    (tallyCounters units).1 + (tallyCounters units).2.1 + (tallyCounters units).2.2
      = units.length := by
  refine ⟨fun ef ok => ?_, fun ef ok i hi => ?_, ?_⟩
  · rcases ef <;> rcases ok <;> rfl
  · rcases ef <;> rcases ok <;>
      · simp only [create_or_update_user_incs, create_new_user_incs] at hi
        simp at hi
        subst hi
        simp
  · have h := tallyCounters_go units (0, 0, 0)
    simpa [tallyCounters] using h

/-- Witness for the amended C2 on a three-unit run (one update, one create,
one failure): the totals close to the number of units. -/
theorem outcome_accounting_C2_amended_witness :
    ((⟨.updated, false⟩ : CounterInc) ∈ create_or_update_user_incs true true ∧
      ((⟨.updated, false⟩ : CounterInc).underLock = true
        ↔ (⟨.updated, false⟩ : CounterInc).counter = .created)) ∧
    (tallyCounters [(true, true), (false, true), (true, false)]).1
        + (tallyCounters [(true, true), (false, true), (true, false)]).2.1
        + (tallyCounters [(true, true), (false, true), (true, false)]).2.2
      = ([(true, true), (false, true), (true, false)] : List (Bool × Bool)).length :=
  ⟨⟨by decide,
    (outcome_accounting_C2_amended []).2.1 true true ⟨.updated, false⟩ (by decide)⟩,
    (outcome_accounting_C2_amended [(true, true), (false, true), (true, false)]).2.2⟩

/-! ## Request-preference reconciliation (`UserImporter.create_new_rp` /
`process_line`) -/

/-- Embedding of `UserImporter.create_new_rp`: builds
`{"holdShelf": True, "delivery": False}`, then assigns
`rp_obj["userId"] = new_user_obj["id"]` (a `KeyError` if the upserted user
document carries no id) and posts exactly that document. -/
def create_new_rp_payload (new_user_obj : Doc) : Except Unit Doc :=
  match dictGet new_user_obj "id" with
  | some uid =>
      .ok [("holdShelf", .bool true), ("delivery", .bool false), ("userId", uid)]
  | none => .error ()

/-- The request-preference action taken by `process_line` after the main
entity operation. -/
inductive RPAction where
  | createOrUpdate
  | createDefault (payload : Doc)

/-- Embedding of the request-preference dispatch in
`UserImporter.process_line`: nothing happens when the main create/update
failed (a falsy `new_user_obj`); otherwise `create_or_update_rp` runs when
either an existing preference or a candidate `requestPreference` object is
truthy, and the default preference is created when both are empty. -/
def rp_dispatch (rp_obj existing_rp new_user_obj : Doc) :
    Except Unit (Option RPAction) :=
  if !new_user_obj.isEmpty then
    if !existing_rp.isEmpty || !rp_obj.isEmpty then .ok (some .createOrUpdate)
    else (create_new_rp_payload new_user_obj).map (fun p => some (.createDefault p))
  else .ok none

/-- C10.  When neither an existing request preference was found nor the
candidate carries a `requestPreference` object, a successful main-entity
upsert is followed by creating a default request preference whose document
is exactly `{holdShelf: true, delivery: false, userId: <upserted id>}`. -/
theorem default_request_preference_C10 (new_user_obj : Doc) (uid : JVal)
    (hid : dictGet new_user_obj "id" = some uid) :
    rp_dispatch [] [] new_user_obj
      = .ok (some (.createDefault
          [("holdShelf", .bool true), ("delivery", .bool false), ("userId", uid)])) := by
  have hne : new_user_obj ≠ [] := by
    intro h
    rw [h] at hid
    cases hid
  rw [rp_dispatch, if_pos (by simpa using hne)]
  rw [if_neg (by simp)]
  rw [create_new_rp_payload, hid]
  rfl

/-- Witness for C10 on a concrete upserted user document. -/
theorem default_request_preference_C10_witness :
    dictGet [("id", JVal.str "u-1"), ("username", JVal.str "ab")] "id"
        = some (JVal.str "u-1") ∧
    rp_dispatch [] [] [("id", JVal.str "u-1"), ("username", JVal.str "ab")]
      = .ok (some (.createDefault
          [("holdShelf", .bool true), ("delivery", .bool false),
            ("userId", JVal.str "u-1")])) :=
  ⟨rfl, default_request_preference_C10
    [("id", JVal.str "u-1"), ("username", JVal.str "ab")] (JVal.str "u-1") rfl⟩

/-! ## Reference-data resolution (`UserImporter.map_patron_groups`,
`map_address_types`, `map_departments`, `map_service_points`) -/

/-- Hexadecimal digit test, matching `int(x, 16)` acceptance per digit. -/
def isHexDigitChar (c : Char) : Bool :=
  c.isDigit || ('a' ≤ c && c ≤ 'f') || ('A' ≤ c && c ≤ 'F')

/-- Embedding of `UserImporter.validate_uuid`, which accepts a string iff
`uuid.UUID(uuid_string)` does: after removing hyphens the string must consist
of 32 hexadecimal digits.  (The `urn:uuid:`/braced forms the library also
accepts do not occur in this data and are not modelled.) -/
def validate_uuid (s : String) : Bool :=
  let cs := s.toList.filter (fun c => !(c == '-'))
  cs.length == 32 && cs.all isHexDigitChar

/-- A `ReferenceMap` built by `build_ref_data_id_map`: human-readable key →
system identifier, with distinct keys (it comes from a Python dict). -/
abbrev RefMap := List (String × String)

/-- Python `ref_map[k]` / `KeyError` as `none`. -/
def refLookup : RefMap → String → Option String
  | [], _ => none
  | (k', v) :: rest, k => if k' = k then some v else refLookup rest k

/-- Python `x in ref_map.values()`. -/
def refValuesContain (m : RefMap) (x : String) : Bool :=
  (m.map Prod.snd).contains x

/-- Embedding of `UserImporter.map_patron_groups`.  A missing `patronGroup`
key raises `KeyError` twice (once in the `try`, again in the handler) and
escapes; an already-resolved identifier (valid UUID among the map's values)
is passed through unchanged; otherwise the group is looked up by name, and
an unmapped name that is not a known identifier is deleted from the user
object. -/
def map_patron_groups (m : RefMap) (user_obj : Doc) : Except Unit Doc :=
  match dictGet user_obj "patronGroup" with
  | some (.str pg) =>
      if validate_uuid pg && refValuesContain m pg then .ok user_obj
      else
        match refLookup m pg with
        | some gid => .ok (dictSet user_obj "patronGroup" (.str gid))
        | none =>
            if refValuesContain m pg then .ok user_obj
            else .ok (dictPop user_obj "patronGroup").2
  | some _ => .error ()
  | none => .error ()

/-- The per-address body of the loop in `UserImporter.map_address_types`:
keep an already-resolved `addressTypeId` unchanged, map a known name, and
drop the whole address (`none`) when the name is unmapped; a missing
`addressTypeId` key raises `KeyError` again inside the handler and escapes. -/
def map_one_address (m : RefMap) (a : JVal) : Except Unit (Option JVal) :=
  match a with
  | .obj ao =>
      match dictGet ao "addressTypeId" with
      | some (.str atid) =>
          if validate_uuid atid && refValuesContain m atid then .ok (some (.obj ao))
          else
            match refLookup m atid with
            | some tid => .ok (some (.obj (dictSet ao "addressTypeId" (.str tid))))
            | none => .ok none
      | some _ => .error ()
      | none => .error ()
  | _ => .error ()

/-- The `for address in addresses:` loop of `map_address_types`, collecting
`mapped_addresses`. -/
def map_addresses_loop (m : RefMap) : List JVal → Except Unit (List JVal)
  | [] => .ok []
  | a :: rest =>
      match map_one_address m a with
      | .error e => .error e
      | .ok r =>
          match map_addresses_loop m rest with
          | .error e => .error e
          | .ok rs =>
              match r with
              | some a' => .ok (a' :: rs)
              | none => .ok rs

/-- Embedding of `UserImporter.map_address_types`: when the user object has a
`personal` dict, its `addresses` list is popped, each address is mapped via
`map_one_address`, and the mapped list is written back only when it is
non-empty. -/
def map_address_types (m : RefMap) (user_obj : Doc) : Except Unit Doc :=
  match dictGet user_obj "personal" with
  | none => .ok user_obj
  | some (.obj p) =>
      match dictPop p "addresses" with
      | (none, p1) => .ok (dictSet user_obj "personal" (.obj p1))
      | (some (.arr addrs), p1) =>
          match map_addresses_loop m addrs with
          | .error e => .error e
          | .ok mapped =>
              let p2 := if !mapped.isEmpty then dictSet p1 "addresses" (.arr mapped) else p1
              .ok (dictSet user_obj "personal" (.obj p2))
      | (some _, _) => .error ()
  | some _ => .error ()

/-- The element loop shared by `map_departments` and the `servicePointsIds`
part of `map_service_points`: keep an already-resolved identifier, map a
known key, and exclude an unmapped key from the rebuilt list. -/
def map_ref_values_loop (m : RefMap) : List JVal → Except Unit (List JVal)
  | [] => .ok []
  | .str s :: rest =>
      if validate_uuid s && refValuesContain m s then
        (map_ref_values_loop m rest).map (fun rs => .str s :: rs)
      else
        match refLookup m s with
        | some sid => (map_ref_values_loop m rest).map (fun rs => .str sid :: rs)
        | none => map_ref_values_loop m rest
  | _ :: _ => .error ()

/-- Embedding of `UserImporter.map_departments`: `departments` is popped,
each entry mapped, and the mapped list written back only when non-empty. -/
def map_departments (m : RefMap) (user_obj : Doc) : Except Unit Doc :=
  match dictPop user_obj "departments" with
  | (none, u1) => .ok u1
  | (some (.arr ds), u1) =>
      match map_ref_values_loop m ds with
      | .error e => .error e
      | .ok mapped =>
          .ok (if !mapped.isEmpty then dictSet u1 "departments" (.arr mapped) else u1)
  | (some _, _) => .error ()

/-- The `defaultServicePointId` step of `UserImporter.map_service_points`:
the field is popped and re-added only when its mapped identifier occurs in
the (already mapped) assigned `servicePointsIds` — otherwise it stays
removed, even when the value was already a valid system identifier; an
unmapped code that is no known identifier also stays removed (`KeyError`
handler), rather than failing the unit. -/
def map_service_points_default (m : RefMap) (spu1 : Doc) : Except Unit Doc :=
  if (dictGet spu1 "defaultServicePointId").isSome then
    match dictPop spu1 "defaultServicePointId" with
    | (some (.str spCode), rest) =>
        let mappedId :=
          if validate_uuid spCode && refValuesContain m spCode then some spCode
          else refLookup m spCode
        match mappedId with
        | none => .ok rest
        | some sid =>
            let assigned := match dictGet rest "servicePointsIds" with
                            | some (.arr l) => l
                            | _ => []
            if jvalMem (.str sid) assigned then
              .ok (dictSet rest "defaultServicePointId" (.str sid))
            else .ok rest
    | _ => .error ()
  else .ok spu1

/-- Embedding of `UserImporter.map_service_points`, part one: the
`servicePointsIds` list is mapped like departments, then the
`defaultServicePointId` step (`map_service_points_default`) runs on the
result. -/
def map_service_points (m : RefMap) (spu_obj : Doc) : Except Unit Doc :=
  match
    (if (dictGet spu_obj "servicePointsIds").isSome then
      match dictPop spu_obj "servicePointsIds" with
      | (some (.arr sps), rest) =>
          match map_ref_values_loop m sps with
          | .error e => .error e
          | .ok mapped =>
              .ok (if !mapped.isEmpty then dictSet rest "servicePointsIds" (.arr mapped) else rest)
      | _ => .error ()
    else .ok spu_obj : Except Unit Doc)
  with
  | .error e => .error e
  | .ok spu1 => map_service_points_default m spu1

/-- Counterexample to C8: a `defaultServicePointId` that is already a valid
system identifier belonging to the service-point map's value set is *not*
left unchanged — it is dropped whenever it does not occur among the user's
assigned `servicePointsIds` (here there are none). -/
theorem reference_resolution_C8_cex :
    validate_uuid "11111111-1111-1111-1111-111111111111" = true ∧
    refValuesContain [("cd1", "11111111-1111-1111-1111-111111111111")]
        "11111111-1111-1111-1111-111111111111" = true ∧
    map_service_points [("cd1", "11111111-1111-1111-1111-111111111111")]
        [("defaultServicePointId", JVal.str "11111111-1111-1111-1111-111111111111")]
      = .ok [] ∧
    dictGet ([] : Doc) "defaultServicePointId" = none :=
  ⟨by decide, by decide, rfl, rfl⟩

theorem map_ref_values_loop_resolved (m : RefMap) :
    ∀ l : List JVal,
      (∀ x ∈ l, ∃ sx, x = .str sx ∧ validate_uuid sx = true ∧
        refValuesContain m sx = true) →
      map_ref_values_loop m l = .ok l := by
  intro l
  induction l with
  | nil => intro _; rfl
  | cons x rest ih =>
    intro h
    obtain ⟨sx, rfl, hval, hmem⟩ := h x (List.mem_cons_self x rest)
    rw [map_ref_values_loop, if_pos (by rw [hval, hmem]; rfl),
      ih (fun y hy => h y (List.mem_cons_of_mem _ hy))]
    rfl

/-- C8 as amended.  Reference-data resolution is idempotent on resolved
values and drops unmapped values rather than failing the unit, for the
patron-group, address-type, department and service-point maps — with one
exception forced by the code: an already-resolved `defaultServicePointId`
survives only when it occurs among the (mapped) assigned
`servicePointsIds`; otherwise the field is dropped. -/
theorem reference_resolution_C8_amended (m : RefMap) :
    (∀ u g, dictGet u "patronGroup" = some (.str g) → validate_uuid g = true →
      refValuesContain m g = true → map_patron_groups m u = .ok u) ∧
    (∀ u g, dictGet u "patronGroup" = some (.str g) → refLookup m g = none →
      refValuesContain m g = false →
      map_patron_groups m u = .ok (dictPop u "patronGroup").2) ∧
    (∀ ao atid, dictGet ao "addressTypeId" = some (.str atid) →
      validate_uuid atid = true → refValuesContain m atid = true →
      map_one_address m (.obj ao) = .ok (some (.obj ao))) ∧
    (∀ ao atid, dictGet ao "addressTypeId" = some (.str atid) →
      refLookup m atid = none → refValuesContain m atid = false →
      map_one_address m (.obj ao) = .ok none) ∧
    (∀ s rest, validate_uuid s = true → refValuesContain m s = true →
      map_ref_values_loop m (.str s :: rest)
        = (map_ref_values_loop m rest).map (fun rs => .str s :: rs)) ∧
    (∀ s rest, refLookup m s = none → refValuesContain m s = false →
      map_ref_values_loop m (.str s :: rest) = map_ref_values_loop m rest) ∧
    (∀ spu l s, topNodup spu →
      dictGet spu "servicePointsIds" = some (.arr l) → l ≠ [] →
      (∀ x ∈ l, ∃ sx, x = .str sx ∧ validate_uuid sx = true ∧
        refValuesContain m sx = true) →
      dictGet spu "defaultServicePointId" = some (.str s) →
      validate_uuid s = true → refValuesContain m s = true →
      ∃ res, map_service_points m spu = .ok res ∧
        dictGet res "defaultServicePointId"
          = (if jvalMem (.str s) l then some (.str s) else none)) := by
  refine ⟨?_, ?_, ?_, ?_, ?_, ?_, ?_⟩
  · intro u g hg hval hmem
    simp [map_patron_groups, hg, hval, hmem]
  · intro u g hg hlk hmem
    simp [map_patron_groups, hg, hlk, hmem]
  · intro ao atid hatid hval hmem
    simp [map_one_address, hatid, hval, hmem]
  · intro ao atid hatid hlk hmem
    simp [map_one_address, hatid, hlk, hmem]
  · intro s rest hval hmem
    rw [map_ref_values_loop, if_pos (by rw [hval, hmem]; rfl)]
  · intro s rest hlk hmem
    rw [map_ref_values_loop, if_neg (by rw [hmem]; simp), hlk]
  · intro spu l s hnd hsp hlne hres hd hval hmem
    have hne₁ : ("defaultServicePointId" : String) ≠ "servicePointsIds" := by decide
    have hne₂ : ("servicePointsIds" : String) ≠ "defaultServicePointId" := by decide
    have hpop₁ : dictPop spu "servicePointsIds"
        = (some (.arr l), (dictPop spu "servicePointsIds").2) := by
      have h := dictPop_fst spu "servicePointsIds"
      rw [hsp] at h
      rw [← h]
    have hlemp : l.isEmpty = false := by
      cases l
      · exact absurd rfl hlne
      · rfl
    have hloop := map_ref_values_loop_resolved m l hres
    rw [map_service_points, if_pos (by rw [hsp]; rfl), hpop₁]
    simp only [hloop, hlemp, Bool.not_false, eq_self_iff_true, if_true]
    set rest₁ := (dictPop spu "servicePointsIds").2 with hrest₁
    set spu₁ := dictSet rest₁ "servicePointsIds" (.arr l) with hspu₁
    have hd₁ : dictGet spu₁ "defaultServicePointId" = some (.str s) := by
      rw [hspu₁, dictGet_dictSet_ne _ _ hne₁, hrest₁, dictGet_dictPop_ne _ hne₁, hd]
    have hpop₂ : dictPop spu₁ "defaultServicePointId"
        = (some (.str s), (dictPop spu₁ "defaultServicePointId").2) := by
      have h := dictPop_fst spu₁ "defaultServicePointId"
      rw [hd₁] at h
      rw [← h]
    have hnd₁ : topNodup spu₁ := topNodup_dictSet (topNodup_dictPop hnd)
    set rest₂ := (dictPop spu₁ "defaultServicePointId").2 with hrest₂
    have hassigned : dictGet rest₂ "servicePointsIds" = some (.arr l) := by
      rw [hrest₂, dictGet_dictPop_ne _ hne₂, hspu₁, dictGet_dictSet_self]
    rw [map_service_points_default, if_pos (by rw [hd₁]; rfl), hpop₂]
    have hcond : (validate_uuid s && refValuesContain m s) = true := by rw [hval, hmem]; rfl
    simp only [hassigned, hcond, eq_self_iff_true, if_true]
    by_cases hj : jvalMem (.str s) l = true
    · rw [if_pos hj, if_pos hj]
      exact ⟨_, rfl, dictGet_dictSet_self _ _ _⟩
    · rw [if_neg hj, if_neg hj]
      exact ⟨_, rfl, dictGet_dictPop_self hnd₁⟩

/-- Witness for the amended C8: an already-resolved patron group passes
through unchanged, and an already-resolved default service point that is
among the assigned service points is kept. -/
theorem reference_resolution_C8_amended_witness :
    (dictGet [("patronGroup", JVal.str "11111111-1111-1111-1111-111111111111")]
        "patronGroup" = some (.str "11111111-1111-1111-1111-111111111111") ∧
      map_patron_groups [("staff", "11111111-1111-1111-1111-111111111111")]
          [("patronGroup", JVal.str "11111111-1111-1111-1111-111111111111")]
        = .ok [("patronGroup", JVal.str "11111111-1111-1111-1111-111111111111")]) ∧
    (∃ res,
      map_service_points [("cd1", "11111111-1111-1111-1111-111111111111")]
          [("servicePointsIds", JVal.arr [.str "11111111-1111-1111-1111-111111111111"]),
            ("defaultServicePointId", JVal.str "11111111-1111-1111-1111-111111111111")]
        = .ok res ∧
      dictGet res "defaultServicePointId"
        = (if jvalMem (.str "11111111-1111-1111-1111-111111111111")
              [.str "11111111-1111-1111-1111-111111111111"]
            then some (.str "11111111-1111-1111-1111-111111111111") else none)) :=
  ⟨⟨rfl,
    (reference_resolution_C8_amended
      [("staff", "11111111-1111-1111-1111-111111111111")]).1
      [("patronGroup", JVal.str "11111111-1111-1111-1111-111111111111")]
      "11111111-1111-1111-1111-111111111111" rfl (by decide) (by decide)⟩,
    (reference_resolution_C8_amended
      [("cd1", "11111111-1111-1111-1111-111111111111")]).2.2.2.2.2.2
      [("servicePointsIds", JVal.arr [.str "11111111-1111-1111-1111-111111111111"]),
        ("defaultServicePointId", JVal.str "11111111-1111-1111-1111-111111111111")]
      [.str "11111111-1111-1111-1111-111111111111"]
      "11111111-1111-1111-1111-111111111111"
      (by simp only [topNodup]; decide) rfl (by simp)
      (fun x hx =>
        ⟨"11111111-1111-1111-1111-111111111111", List.mem_singleton.mp hx,
          by decide, by decide⟩)
      rfl (by decide) (by decide)⟩

/-! ## Merge, protection and preferred contact type
(`UserImporter.update_existing_user`, `set_preferred_contact_type`,
`get_protected_fields`) -/

/-- `PREFERRED_CONTACT_TYPES_MAP` from `UserImport.py`. -/
def PREFERRED_CONTACT_TYPES_MAP : List (String × String) :=
  [("001", "mail"), ("002", "email"), ("003", "text"), ("004", "phone"), ("005", "mobile")]

/-- Python `current_pref_contact in PREFERRED_CONTACT_TYPES_MAP`
(dict-key membership). -/
def pctIsKey (c : String) : Bool :=
  (PREFERRED_CONTACT_TYPES_MAP.map Prod.fst).contains c

/-- The reverse lookup
`dict([(v, k) for k, v in PREFERRED_CONTACT_TYPES_MAP.items()]).get(current, "")`,
with the falsy `""` default embedded as `none`. -/
def pctReverseGet (c : String) : Option String :=
  refLookup (PREFERRED_CONTACT_TYPES_MAP.map (fun p => (p.2, p.1))) c

/-- The candidate's `personal.preferredContactTypeId`, `some` exactly when
`set_preferred_contact_type` takes its first branch
(`"personal" in user_obj and "preferredContactTypeId" in user_obj["personal"]`).
A candidate whose `personal` is not an object takes the else branch here
(CPython would raise for most non-dict types; candidate records carry
`personal` as an object). -/
def pct_candidate (user_obj : Doc) : Option JVal :=
  match dictGet user_obj "personal" with
  | some (.obj up) => dictGet up "preferredContactTypeId"
  | _ => none

/-- The value `set_preferred_contact_type` stores into
`existing_user["personal"]["preferredContactTypeId"]`: a provided contact
type name is reverse-mapped to its id, a provided valid key is kept, and a
provided bool or number (hashable, matching no key of the reverse map nor of
`PREFERRED_CONTACT_TYPES_MAP`) falls back to the default — but a provided
JSON object or array is unhashable, so the reverse-map
`dict(...).get(current_pref_contact, "")` raises `TypeError`, which
propagates uncaught and produces no document (`.error`).  With nothing
provided, the existing value is kept when truthy, else the default
(`mapped or default`, applied twice as in the source). -/
def preferred_contact_type_value (dflt : String) (user_obj existing_user : Doc) :
    Except Unit JVal :=
  match pct_candidate user_obj with
  | some (.str c) =>
      match pctReverseGet c with
      | some mapped => .ok (.str mapped)
      | none => .ok (if pctIsKey c then .str c else .str dflt)
  | some (.bool _) => .ok (.str dflt)
  | some (.num _) => .ok (.str dflt)
  | some (.obj _) => .error ()
  | some (.arr _) => .error ()
  | none =>
      let existingVal : JVal :=
        match dictGet existing_user "personal" with
        | some (.obj ep) => (dictGet ep "preferredContactTypeId").getD (.str "")
        | _ => .str ""
      .ok (pyOr (pyOr existingVal (.str dflt)) (.str dflt))

/-- Embedding of `UserImporter.set_preferred_contact_type`: stores
`preferred_contact_type_value` into the existing user's `personal` dict
(propagating the `TypeError` of an unhashable provided value).  With the
first branch taken and no `personal` dict on the existing user, the
assignment `existing_user["personal"][...] = ...` raises `KeyError`; a
non-dict `personal` raises on item assignment in either branch. -/
def set_preferred_contact_type (dflt : String) (user_obj existing_user : Doc) :
    Except Unit Doc :=
  match preferred_contact_type_value dflt user_obj existing_user with
  | .error e => .error e
  | .ok v =>
    match dictGet existing_user "personal" with
    | some (.obj ep) =>
        .ok (dictSet existing_user "personal" (.obj (dictSet ep "preferredContactTypeId" v)))
    | some _ => .error ()
    | none =>
        if (pct_candidate user_obj).isSome then .error ()
        else .ok (dictSet existing_user "personal" (.obj [("preferredContactTypeId", v)]))

/-- The `personal`-object part of the `only_update_present_fields` merge of
`update_existing_user`: `existing_personal` is the existing `personal`
object (after the `preferredContactTypeId` pop), `new_personal` the
candidate's.  `preferredFirstName` is popped first and restored only when
the overlay left it falsy and the existing value was truthy; `addresses` is
re-installed from the existing object whenever the overlay left it falsy
(which also always puts an `addresses` key in the result). -/
def mop_personal (new_personal existing_personal : Doc) : Doc :=
  let popPfn := dictPop existing_personal "preferredFirstName"
  let epfn : JVal := popPfn.1.getD (.str "")
  let ep₁ := popPfn.2
  let existing_addresses : JVal := (dictGet ep₁ "addresses").getD (.arr [])
  let ep₂ := dictUpdate ep₁ new_personal
  let ep₃ :=
    if !((dictGet ep₂ "preferredFirstName").getD (.str "")).truthy && epfn.truthy then
      dictSet ep₂ "preferredFirstName" epfn
    else ep₂
  if !((dictGet ep₃ "addresses").getD (.arr [])).truthy then
    dictSet ep₃ "addresses" existing_addresses
  else ep₃

/-- The document-level part of the merge: top-level overlay of the candidate
(minus `personal`) over the existing document (minus `personal`), with the
merged `personal` (`mop_personal`) installed when non-empty. -/
def merge_only_present (user₁ existing₃ new_personal existing_personal : Doc) : Doc :=
  let existingU := dictUpdate existing₃ user₁
  let ep₄ := mop_personal new_personal existing_personal
  if !ep₄.isEmpty then dictSet existingU "personal" (.obj ep₄) else existingU

/-- The `for key, value in protected_fields.items():` restore loop at the
end of `update_existing_user`: a dict-valued protected entry is merged into
the post-merge value with `dict.update` (assigned whole on `KeyError`), any
other value is assigned; `.update` on a present non-dict raises. -/
def restore_protected : Doc → Doc → Except Unit Doc
  | d, [] => .ok d
  | d, (k, v) :: rest =>
      match v with
      | .obj o =>
          match dictGet d k with
          | some (.obj dk) => restore_protected (dictSet d k (.obj (dictUpdate dk o))) rest
          | some _ => .error ()
          | none => restore_protected (dictSet d k v) rest
      | _ => restore_protected (dictSet d k v) rest

/-- Embedding of `UserImporter.update_existing_user`: runs
`set_preferred_contact_type`, pops `personal.preferredContactTypeId` into
`preferred_contact_type`, merges the candidate over the existing document
(full replace, or `merge_only_present` when `only_update_present_fields`),
re-injects the popped contact type into `personal`, and finally restores the
protected fields.  Code paths that raise
(`KeyError`/`TypeError`/`AttributeError`) return `.error`. -/
def update_existing_user (onlyPresent : Bool) (dflt : String)
    (user_obj existing_user protected_fields : Doc) : Except Unit Doc :=
  match set_preferred_contact_type dflt user_obj existing_user with
  | .error e => .error e
  | .ok existing₁ =>
    match dictGet existing₁ "personal" with
    | some (.obj ep) =>
      match dictPop ep "preferredContactTypeId" with
      | (some pct, ep₁) =>
        let existing₂ := dictSet existing₁ "personal" (.obj ep₁)
        let mergedE : Except Unit Doc :=
          if onlyPresent then
            let popP := dictPop user_obj "personal"
            match popP.1 with
            | some (.obj np) =>
                .ok (merge_only_present popP.2 (dictPop existing₂ "personal").2 np ep₁)
            | none =>
                .ok (merge_only_present popP.2 (dictPop existing₂ "personal").2 [] ep₁)
            | some _ => .error ()
          else .ok (dictUpdate existing₂ user_obj)
        match mergedE with
        | .error e => .error e
        | .ok merged =>
          match dictGet merged "personal" with
          | some (.obj mp) =>
              restore_protected
                (dictSet merged "personal" (.obj (dictSet mp "preferredContactTypeId" pct)))
                protected_fields
          | some _ => .error ()
          | none =>
              restore_protected
                (dictSet merged "personal" (.obj [("preferredContactTypeId", pct)]))
                protected_fields
      | (none, _) => .error ()
    | _ => .error ()

/-- Split a character list at the first `'.'` (Python `field.split(".", 1)`). -/
def split_once_dot : List Char → List Char × Option (List Char)
  | [] => ([], none)
  | c :: rest =>
      if c = '.' then ([], some rest)
      else
        let p := split_once_dot rest
        (c :: p.1, p.2)

/-- The part of a protect-list field before the first dot. -/
def field_head (f : String) : String := String.mk (split_once_dot f.toList).1

/-- The part after the first dot, when the field is dotted. -/
def field_sub (f : String) : Option String := (split_once_dot f.toList).2.map String.mk

/-- Worker for Python `s.split(",")`. -/
def py_split_comma_go : List Char → List Char → List String
  | [], acc => [String.mk acc.reverse]
  | c :: rest, acc =>
      if c = ',' then String.mk acc.reverse :: py_split_comma_go rest []
      else py_split_comma_go rest (c :: acc)

/-- Python `s.split(",")` (which yields `[""]` for the empty string). -/
def py_split_comma (s : String) : List String := py_split_comma_go s.toList []

/-- Python `list(dict.fromkeys(l))`: deduplicate keeping first occurrences
in order. -/
def py_dict_fromkeys : List String → List String
  | [] => []
  | s :: rest => s :: (py_dict_fromkeys rest).filter (fun t => !(t == s))

/-- The combined, deduplicated field list of `get_protected_fields`:
`existing_user.customFields.protectedFields` (a comma-separated string,
defaulting to `""`) split on commas, followed by the CLI `fields_to_protect`
(a Python set in the source, embedded as a list in its iteration order). -/
def all_protect_fields (fields_to_protect : List String) (existing_user : Doc) :
    Except Unit (List String) :=
  match dictGet existing_user "customFields" with
  | some (.obj cf) =>
      match (dictGet cf "protectedFields").getD (.str "") with
      | .str s => .ok (py_dict_fromkeys (py_split_comma s ++ fields_to_protect))
      | _ => .error ()
  | none => .ok (py_dict_fromkeys (py_split_comma "" ++ fields_to_protect))
  | some _ => .error ()

/-- The `for field in all_fields:` loop of `get_protected_fields`: a dotted
field pops the subfield out of the existing document's nested dict into
`protected_fields.setdefault(fld, {})`; a plain field pops the whole value.
Absent values (`None`) are skipped. -/
def protect_loop : List String → Doc → Doc → Except Unit (Doc × Doc)
  | [], prot, ex => .ok (prot, ex)
  | f :: rest, prot, ex =>
      match field_sub f with
      | some sub =>
          let fld := field_head f
          match dictGet ex fld with
          | some (.obj o) =>
              let popped := dictPop o sub
              let ex₁ := dictSet ex fld (.obj popped.2)
              match popped.1 with
              | some v =>
                  match dictGet prot fld with
                  | some (.obj po) =>
                      protect_loop rest (dictSet prot fld (.obj (dictSet po sub v))) ex₁
                  | some _ => .error ()
                  | none => protect_loop rest (dictSet prot fld (.obj [(sub, v)])) ex₁
              | none => protect_loop rest prot ex₁
          | some _ => .error ()
          | none => protect_loop rest prot ex
      | none =>
          let popped := dictPop ex f
          match popped.1 with
          | some v => protect_loop rest (dictSet prot f v) popped.2
          | none => protect_loop rest prot popped.2

/-- Embedding of `UserImporter.get_protected_fields`: builds the combined
field list and runs the capture loop, returning the `protected_fields` dict
and the existing document with the protected values popped out. -/
def get_protected_fields (fields_to_protect : List String) (existing_user : Doc) :
    Except Unit (Doc × Doc) :=
  match all_protect_fields fields_to_protect existing_user with
  | .error e => .error e
  | .ok fields => protect_loop fields [] existing_user

theorem dictSet_dictSet_self (d : Doc) (k : String) (a b : JVal) :
    dictSet (dictSet d k a) k b = dictSet d k b := by
  induction d with
  | nil => simp [dictSet]
  | cons p rest ih =>
    obtain ⟨k₀, v₀⟩ := p
    by_cases h₀ : k₀ = k
    · simp [dictSet, h₀]
    · simp [dictSet, h₀, ih]

theorem dictSet_ne_nil (d : Doc) (k : String) (v : JVal) : dictSet d k v ≠ [] := by
  cases d with
  | nil => simp [dictSet]
  | cons p rest =>
    obtain ⟨k₀, v₀⟩ := p
    by_cases h₀ : k₀ = k
    · simp [dictSet, h₀]
    · simp [dictSet, h₀]

/-- Counterexample to C4: under only-update-present-fields, a candidate that
*does* carry `personal.preferredFirstName` (as `""`), `personal.addresses`
(as `[]`) and `personal.preferredContactTypeId` (as `"mail"`) does not see
those candidate values in the merged document: the existing first name and
addresses are kept and the contact type is normalized to `"001"`. -/
theorem merge_policy_C4_cex :
    update_existing_user true "002"
        [("personal", JVal.obj [("preferredFirstName", .str ""),
          ("preferredContactTypeId", .str "mail"), ("addresses", .arr [])])]
        [("id", .str "u1"),
          ("personal", JVal.obj [("preferredFirstName", .str "Bob"),
            ("preferredContactTypeId", .str "002"), ("addresses", .arr [.str "addr1"])])]
        []
      = .ok [("id", JVal.str "u1"),
          ("personal", JVal.obj [("addresses", .arr [.str "addr1"]),
            ("preferredFirstName", .str "Bob"),
            ("preferredContactTypeId", .str "001")])] ∧
    JVal.str "Bob" ≠ JVal.str "" ∧
    JVal.arr [.str "addr1"] ≠ JVal.arr [] ∧
    JVal.str "001" ≠ JVal.str "mail" := by
  refine ⟨rfl, by simp, by simp, by simp⟩

/-- Counterexample to C3: protecting the dict-valued top-level field
`customFields` does not restore its pre-merge value — the restore uses
`dict.update`, so the candidate-introduced subkey `b` survives in the
document sent to the server. -/
theorem protected_fields_C3_cex :
    get_protected_fields ["customFields"]
        [("id", .str "u1"),
          ("personal", JVal.obj [("preferredContactTypeId", .str "002")]),
          ("customFields", JVal.obj [("a", .str "1")])]
      = .ok ([("customFields", JVal.obj [("a", .str "1")])],
          [("id", JVal.str "u1"),
            ("personal", JVal.obj [("preferredContactTypeId", JVal.str "002")])]) ∧
    update_existing_user false "002"
        [("customFields", JVal.obj [("a", .str "2"), ("b", .str "3")])]
        [("id", JVal.str "u1"),
          ("personal", JVal.obj [("preferredContactTypeId", JVal.str "002")])]
        [("customFields", JVal.obj [("a", .str "1")])]
      = .ok [("id", JVal.str "u1"),
          ("personal", JVal.obj [("preferredContactTypeId", JVal.str "002")]),
          ("customFields", JVal.obj [("a", JVal.str "1"), ("b", JVal.str "3")])] ∧
    JVal.obj [("a", JVal.str "1"), ("b", JVal.str "3")]
      ≠ JVal.obj [("a", JVal.str "1")] := by
  refine ⟨rfl, rfl, by simp⟩

theorem ne_nil_of_dictGet_some {d : Doc} {k : String} {v : JVal}
    (h : dictGet d k = some v) : d ≠ [] := by
  intro hnil
  rw [hnil] at h
  cases h

theorem dictGet_dictUpdate_or {u : Doc} (hu : topNodup u) (d : Doc) (k : String) :
    dictGet (dictUpdate d u) k = (dictGet u k).or (dictGet d k) := by
  cases h : dictGet u k with
  | none => rw [dictGet_dictUpdate_of_none h]; rfl
  | some v => rw [dictGet_dictUpdate_of_some hu h]; rfl

theorem addresses_step_ne_nil (ep₃ : Doc) (ea : JVal) :
    (if !((dictGet ep₃ "addresses").getD (.arr [])).truthy then
        dictSet ep₃ "addresses" ea
      else ep₃) ≠ [] := by
  split
  · exact dictSet_ne_nil _ _ _
  · rename_i hc
    cases h : dictGet ep₃ "addresses" with
    | none => rw [h] at hc; simp [JVal.truthy] at hc
    | some w => exact ne_nil_of_dictGet_some h

theorem mop_personal_ne_nil (np epd : Doc) : mop_personal np epd ≠ [] := by
  rw [mop_personal]
  exact addresses_step_ne_nil _ _

theorem merge_only_present_eq (user₁ existing₃ np epd : Doc) :
    merge_only_present user₁ existing₃ np epd
      = dictSet (dictUpdate existing₃ user₁) "personal" (.obj (mop_personal np epd)) := by
  rw [merge_only_present]
  rw [if_pos]
  simp only [Bool.not_eq_true']
  rw [← Bool.not_eq_true]
  intro h
  exact mop_personal_ne_nil np epd (List.isEmpty_iff.mp (by simpa using h))

theorem mop_personal_get_other (np epd : Doc) (hnp : topNodup np) (sk : String)
    (h1 : sk ≠ "preferredFirstName") (h2 : sk ≠ "addresses") :
    dictGet (mop_personal np epd) sk = (dictGet np sk).or (dictGet epd sk) := by
  rw [mop_personal]
  have key : ∀ ep₃ : Doc,
      dictGet (if !((dictGet ep₃ "addresses").getD (.arr [])).truthy then
          dictSet ep₃ "addresses" ((dictGet (dictPop epd "preferredFirstName").2
            "addresses").getD (.arr []))
        else ep₃) sk = dictGet ep₃ sk := by
    intro ep₃
    split
    · exact dictGet_dictSet_ne _ _ h2
    · rfl
  rw [key]
  have key₂ : dictGet (if !((dictGet (dictUpdate (dictPop epd "preferredFirstName").2 np)
        "preferredFirstName").getD (.str "")).truthy
        && ((dictPop epd "preferredFirstName").1.getD (.str "")).truthy then
        dictSet (dictUpdate (dictPop epd "preferredFirstName").2 np)
          "preferredFirstName" ((dictPop epd "preferredFirstName").1.getD (.str ""))
      else dictUpdate (dictPop epd "preferredFirstName").2 np) sk
      = dictGet (dictUpdate (dictPop epd "preferredFirstName").2 np) sk := by
    split
    · exact dictGet_dictSet_ne _ _ h1
    · rfl
  rw [key₂, dictGet_dictUpdate_or hnp, dictGet_dictPop_ne _ h1]

theorem mop_personal_get_pfn (np epd : Doc) (hnp : topNodup np) (hepd : topNodup epd) :
    dictGet (mop_personal np epd) "preferredFirstName"
      = if ((dictGet np "preferredFirstName").getD (.str "")).truthy then
          dictGet np "preferredFirstName"
        else if ((dictGet epd "preferredFirstName").getD (.str "")).truthy then
          dictGet epd "preferredFirstName"
        else dictGet np "preferredFirstName" := by
  rw [mop_personal]
  have key : ∀ ep₃ : Doc,
      dictGet (if !((dictGet ep₃ "addresses").getD (.arr [])).truthy then
          dictSet ep₃ "addresses" ((dictGet (dictPop epd "preferredFirstName").2
            "addresses").getD (.arr []))
        else ep₃) "preferredFirstName" = dictGet ep₃ "preferredFirstName" := by
    intro ep₃
    split
    · exact dictGet_dictSet_ne _ _ (by decide)
    · rfl
  rw [key]
  have hupd : dictGet (dictUpdate (dictPop epd "preferredFirstName").2 np) "preferredFirstName"
      = dictGet np "preferredFirstName" := by
    rw [dictGet_dictUpdate_or hnp, dictGet_dictPop_self hepd]
    cases dictGet np "preferredFirstName" <;> rfl
  have hpopf : (dictPop epd "preferredFirstName").1 = dictGet epd "preferredFirstName" :=
    dictPop_fst _ _
  rw [hupd, hpopf]
  by_cases ha : ((dictGet np "preferredFirstName").getD (.str "")).truthy
  · rw [if_neg (by rw [ha]; simp), hupd, if_pos ha]
  · by_cases hb : ((dictGet epd "preferredFirstName").getD (.str "")).truthy
    · rw [if_pos (by rw [Bool.not_eq_true] at ha; rw [ha, hb]; rfl),
        dictGet_dictSet_self, if_neg ha, if_pos hb]
      cases hbb : dictGet epd "preferredFirstName" with
      | none => rw [hbb] at hb; simp [JVal.truthy] at hb
      | some w => rfl
    · rw [if_neg (by rw [Bool.not_eq_true] at hb; rw [hb]; simp), hupd,
        if_neg ha, if_neg hb]

theorem mop_personal_get_addresses (np epd : Doc) (hnp : topNodup np) :
    dictGet (mop_personal np epd) "addresses"
      = if ((dictGet np "addresses").getD (.arr [])).truthy then dictGet np "addresses"
        else some ((dictGet epd "addresses").getD (.arr [])) := by
  rw [mop_personal]
  have key₂ : dictGet (if !((dictGet (dictUpdate (dictPop epd "preferredFirstName").2 np)
        "preferredFirstName").getD (.str "")).truthy
        && ((dictPop epd "preferredFirstName").1.getD (.str "")).truthy then
        dictSet (dictUpdate (dictPop epd "preferredFirstName").2 np)
          "preferredFirstName" ((dictPop epd "preferredFirstName").1.getD (.str ""))
      else dictUpdate (dictPop epd "preferredFirstName").2 np) "addresses"
      = dictGet (dictUpdate (dictPop epd "preferredFirstName").2 np) "addresses" := by
    split
    · exact dictGet_dictSet_ne _ _ (by decide)
    · rfl
  have hupd : dictGet (dictUpdate (dictPop epd "preferredFirstName").2 np) "addresses"
      = (dictGet np "addresses").or (dictGet epd "addresses") := by
    rw [dictGet_dictUpdate_or hnp, dictGet_dictPop_ne _ (by decide)]
  have hea : dictGet (dictPop epd "preferredFirstName").2 "addresses"
      = dictGet epd "addresses" := dictGet_dictPop_ne _ (by decide)
  rw [key₂, hupd, hea]
  cases hna : dictGet np "addresses" with
  | some v =>
      by_cases hv : v.truthy
      · rw [if_neg (by simp [Option.or, hv]), key₂, hupd, hna, if_pos (by simpa using hv)]
        rfl
      · rw [Bool.not_eq_true] at hv
        rw [if_pos (by simp [Option.or, hv]), dictGet_dictSet_self,
          if_neg (by simpa using hv)]
  | none =>
      cases heb : dictGet epd "addresses" with
      | some w =>
          by_cases hw : w.truthy
          · rw [if_neg (by simp [Option.or, hw]), key₂, hupd, hna, heb,
              if_neg (by simp [JVal.truthy])]
            rfl
          · rw [Bool.not_eq_true] at hw
            rw [if_pos (by simp [Option.or, hw]), dictGet_dictSet_self,
              if_neg (by simp [JVal.truthy])]
      | none =>
          rw [if_pos (by simp [Option.or, JVal.truthy]), dictGet_dictSet_self,
            if_neg (by simp [JVal.truthy])]

/-- C4 as amended.  Under only-update-present-fields (for an existing
document with a `personal` object, which the contact-type handling requires,
and provided the contact-type normalization succeeds — a candidate whose
`personal.preferredContactTypeId` is a JSON object or array makes it raise
an uncaught TypeError and no merged document is produced): top-level fields
other than `personal` follow the overlay rule exactly (present in the
candidate → candidate's value; absent → existing value), and so do
`personal` subfields other than the three special-cased ones; a candidate
`preferredFirstName` or `addresses` with an empty (falsy) value is treated
as absent, the existing value surviving; and `preferredContactTypeId` is
not copied but set to the normalized value `pv` (names mapped to ids,
invalid hashable values replaced by the default or the existing value). -/
theorem merge_policy_C4_amended (dflt : String) (E C EP CP : Doc) (pv : JVal)
    (hC : topNodup C)
    (hEPg : dictGet E "personal" = some (.obj EP)) (hEPn : topNodup EP)
    (hCPg : dictGet C "personal" = some (.obj CP) ∨
      (dictGet C "personal" = none ∧ CP = [])) (hCPn : topNodup CP)
    (hpv : preferred_contact_type_value dflt C E = .ok pv) :
    ∃ M MP, update_existing_user true dflt C E [] = .ok M ∧
      dictGet M "personal" = some (.obj MP) ∧
      (∀ k v, k ≠ "personal" → dictGet C k = some v → dictGet M k = some v) ∧
      (∀ k, k ≠ "personal" → dictGet C k = none → dictGet M k = dictGet E k) ∧
      (∀ sk v, sk ≠ "preferredContactTypeId" → sk ≠ "preferredFirstName" →
        sk ≠ "addresses" → dictGet CP sk = some v → dictGet MP sk = some v) ∧
      (∀ sk, sk ≠ "preferredContactTypeId" → sk ≠ "preferredFirstName" →
        sk ≠ "addresses" → dictGet CP sk = none → dictGet MP sk = dictGet EP sk) ∧
      (dictGet MP "preferredFirstName" =
        if ((dictGet CP "preferredFirstName").getD (.str "")).truthy then
          dictGet CP "preferredFirstName"
        else if ((dictGet EP "preferredFirstName").getD (.str "")).truthy then
          dictGet EP "preferredFirstName"
        else dictGet CP "preferredFirstName") ∧
      (dictGet MP "addresses" =
        if ((dictGet CP "addresses").getD (.arr [])).truthy then dictGet CP "addresses"
        else some ((dictGet EP "addresses").getD (.arr []))) ∧
      dictGet MP "preferredContactTypeId" = some pv := by
  obtain ⟨ep₁, hep₁⟩ : ∃ x,
      (dictPop (dictSet EP "preferredContactTypeId" pv) "preferredContactTypeId").2 = x :=
    ⟨_, rfl⟩
  obtain ⟨e₃, he₃⟩ : ∃ x, (dictPop (dictSet E "personal" (.obj ep₁)) "personal").2 = x :=
    ⟨_, rfl⟩
  obtain ⟨u₁, hu₁⟩ : ∃ x, (dictPop C "personal").2 = x := ⟨_, rfl⟩
  have hspt : set_preferred_contact_type dflt C E
      = .ok (dictSet E "personal" (.obj (dictSet EP "preferredContactTypeId" pv))) := by
    simp only [set_preferred_contact_type, hpv, hEPg]
  have hpopv : dictPop (dictSet EP "preferredContactTypeId" pv) "preferredContactTypeId"
      = (some pv, ep₁) := by
    have h := dictPop_fst (dictSet EP "preferredContactTypeId" pv) "preferredContactTypeId"
    rw [dictGet_dictSet_self] at h
    rw [← h, ← hep₁]
  have hrun : update_existing_user true dflt C E []
      = .ok (dictSet (dictUpdate e₃ u₁) "personal"
          (.obj (dictSet (mop_personal CP ep₁) "preferredContactTypeId" pv))) := by
    rcases hCPg with hCP1 | ⟨hCP1, rfl⟩ <;>
      simp only [update_existing_user, hspt, dictGet_dictSet_self, hpopv, dictPop_fst,
        hCP1, eq_self_iff_true, if_true, dictSet_dictSet_self, hep₁, he₃, hu₁,
        merge_only_present_eq, restore_protected]
  have hu₁n : topNodup u₁ := by
    rw [← hu₁]; exact topNodup_dictPop hC
  have hep₁n : topNodup ep₁ := by
    rw [← hep₁]; exact topNodup_dictPop (topNodup_dictSet hEPn)
  have hep₁get : ∀ sk : String, sk ≠ "preferredContactTypeId" →
      dictGet ep₁ sk = dictGet EP sk := by
    intro sk hsk
    rw [← hep₁, dictGet_dictPop_ne _ hsk, dictGet_dictSet_ne _ _ hsk]
  refine ⟨_, _, hrun, dictGet_dictSet_self _ _ _, ?_, ?_, ?_, ?_, ?_, ?_, ?_⟩
  · intro k w hk hCk
    rw [dictGet_dictSet_ne _ _ hk, dictGet_dictUpdate_or hu₁n, ← hu₁,
      dictGet_dictPop_ne _ hk, hCk]
    rfl
  · intro k hk hCk
    rw [dictGet_dictSet_ne _ _ hk, dictGet_dictUpdate_or hu₁n, ← hu₁,
      dictGet_dictPop_ne _ hk, hCk, ← he₃, dictGet_dictPop_ne _ hk,
      dictGet_dictSet_ne _ _ hk]
    rfl
  · intro sk w h1 h2 h3 hCPs
    rw [dictGet_dictSet_ne _ _ h1, mop_personal_get_other CP ep₁ hCPn sk h2 h3, hCPs]
    rfl
  · intro sk h1 h2 h3 hCPs
    rw [dictGet_dictSet_ne _ _ h1, mop_personal_get_other CP ep₁ hCPn sk h2 h3, hCPs,
      hep₁get sk h1]
    rfl
  · rw [dictGet_dictSet_ne _ _ (by decide),
      mop_personal_get_pfn CP ep₁ hCPn hep₁n,
      hep₁get "preferredFirstName" (by decide)]
  · rw [dictGet_dictSet_ne _ _ (by decide),
      mop_personal_get_addresses CP ep₁ hCPn,
      hep₁get "addresses" (by decide)]
  · rw [dictGet_dictSet_self]

/-- Witness for the amended C4: a candidate without `personal` merged over an
existing user with a preferred first name; the contact-type normalization
succeeds with the default id `"002"`. -/
theorem merge_policy_C4_amended_witness :
    (topNodup [("barcode", JVal.str "b1")] ∧
      dictGet [("personal", JVal.obj [("preferredFirstName", JVal.str "Ann")])] "personal"
        = some (.obj [("preferredFirstName", JVal.str "Ann")]) ∧
      topNodup [("preferredFirstName", JVal.str "Ann")] ∧
      (dictGet [("barcode", JVal.str "b1")] "personal" = some (.obj []) ∨
        (dictGet [("barcode", JVal.str "b1")] "personal" = none ∧ ([] : Doc) = [])) ∧
      topNodup ([] : Doc) ∧
      preferred_contact_type_value "002" [("barcode", JVal.str "b1")]
        [("personal", JVal.obj [("preferredFirstName", JVal.str "Ann")])]
        = .ok (JVal.str "002")) ∧
    (∃ M MP, update_existing_user true "002" [("barcode", JVal.str "b1")]
        [("personal", JVal.obj [("preferredFirstName", JVal.str "Ann")])] [] = .ok M ∧
      dictGet M "personal" = some (.obj MP) ∧
      (∀ k v, k ≠ "personal" → dictGet [("barcode", JVal.str "b1")] k = some v →
        dictGet M k = some v) ∧
      (∀ k, k ≠ "personal" → dictGet [("barcode", JVal.str "b1")] k = none →
        dictGet M k
          = dictGet [("personal", JVal.obj [("preferredFirstName", JVal.str "Ann")])] k) ∧
      (∀ sk v, sk ≠ "preferredContactTypeId" → sk ≠ "preferredFirstName" →
        sk ≠ "addresses" → dictGet ([] : Doc) sk = some v → dictGet MP sk = some v) ∧
      (∀ sk, sk ≠ "preferredContactTypeId" → sk ≠ "preferredFirstName" →
        sk ≠ "addresses" → dictGet ([] : Doc) sk = none →
        dictGet MP sk = dictGet [("preferredFirstName", JVal.str "Ann")] sk) ∧
      (dictGet MP "preferredFirstName" =
        if ((dictGet ([] : Doc) "preferredFirstName").getD (.str "")).truthy then
          dictGet ([] : Doc) "preferredFirstName"
        else if ((dictGet [("preferredFirstName", JVal.str "Ann")]
            "preferredFirstName").getD (.str "")).truthy then
          dictGet [("preferredFirstName", JVal.str "Ann")] "preferredFirstName"
        else dictGet ([] : Doc) "preferredFirstName") ∧
      (dictGet MP "addresses" =
        if ((dictGet ([] : Doc) "addresses").getD (.arr [])).truthy then
          dictGet ([] : Doc) "addresses"
        else some ((dictGet [("preferredFirstName", JVal.str "Ann")] "addresses").getD
          (.arr []))) ∧
      dictGet MP "preferredContactTypeId" = some (JVal.str "002")) :=
  ⟨⟨by simp [topNodup], rfl, by simp [topNodup], Or.inr ⟨rfl, rfl⟩, by simp [topNodup],
      rfl⟩,
    merge_policy_C4_amended "002"
      [("personal", JVal.obj [("preferredFirstName", JVal.str "Ann")])]
      [("barcode", JVal.str "b1")]
      [("preferredFirstName", JVal.str "Ann")] [] (JVal.str "002")
      (by simp [topNodup]) rfl (by simp [topNodup]) (Or.inr ⟨rfl, rfl⟩)
      (by simp [topNodup]) rfl⟩

theorem split_once_dot_none :
    ∀ cs : List Char, (split_once_dot cs).2 = none → (split_once_dot cs).1 = cs := by
  intro cs
  induction cs with
  | nil => intro _; rfl
  | cons c rest ih =>
    intro h
    rw [split_once_dot] at h ⊢
    by_cases hc : c = '.'
    · rw [if_pos hc] at h
      cases h
    · rw [if_neg hc] at h ⊢
      simp only [List.cons.injEq, true_and]
      exact ih h

theorem field_head_eq_self {f : String} (h : field_sub f = none) : field_head f = f := by
  rw [field_sub] at h
  have h2 : (split_once_dot f.toList).2 = none := by
    cases hs : (split_once_dot f.toList).2
    · rfl
    · rw [hs] at h
      cases h
  rw [field_head, split_once_dot_none _ h2]
  cases f
  rfl

theorem mem_py_dict_fromkeys {s : String} :
    ∀ l : List String, s ∈ py_dict_fromkeys l ↔ s ∈ l := by
  intro l
  induction l with
  | nil => simp [py_dict_fromkeys]
  | cons t rest ih =>
    rw [py_dict_fromkeys]
    by_cases hst : s = t
    · subst hst
      simp
    · simp only [List.mem_cons, List.mem_filter, ih]
      constructor
      · rintro (rfl | ⟨hm, _⟩)
        · exact Or.inl rfl
        · exact Or.inr hm
      · rintro (rfl | hm)
        · exact Or.inl rfl
        · exact Or.inr ⟨hm, by simpa using hst⟩

/-- Every object stored as a value of the document has pairwise-distinct
keys (true of any document produced by JSON parsing). -/
def objValsNodup (d : Doc) : Prop :=
  ∀ k o, dictGet d k = some (.obj o) → topNodup o

theorem objValsNodup_dictSet {d : Doc} {k : String} {v : JVal}
    (hd : objValsNodup d) (hv : ∀ o, v = .obj o → topNodup o) :
    objValsNodup (dictSet d k v) := by
  intro k' o h
  by_cases hk : k' = k
  · subst hk
    rw [dictGet_dictSet_self] at h
    injection h with h2
    exact hv o h2
  · rw [dictGet_dictSet_ne _ _ hk] at h
    exact hd k' o h

theorem objValsNodup_dictPop {d : Doc} {k : String}
    (hd : objValsNodup d) (hnd : topNodup d) : objValsNodup (dictPop d k).2 := by
  intro k' o h
  by_cases hk : k' = k
  · subst hk
    rw [dictGet_dictPop_self hnd] at h
    cases h
  · rw [dictGet_dictPop_ne _ hk] at h
    exact hd k' o h

theorem protect_loop_prot_untouched :
    ∀ (fields : List String) (prot ex prot' ex' : Doc),
      protect_loop fields prot ex = .ok (prot', ex') →
      ∀ k, k ∉ fields.map field_head → dictGet prot' k = dictGet prot k := by
  intro fields
  induction fields with
  | nil =>
    intro prot ex prot' ex' h k _
    rw [protect_loop] at h
    cases h
    rfl
  | cons g rest ih =>
    intro prot ex prot' ex' h k hk
    simp only [List.map_cons, List.mem_cons] at hk
    push_neg at hk
    obtain ⟨hk₁, hk₂⟩ := hk
    rw [protect_loop] at h
    cases hsubg : field_sub g with
    | some sub =>
      cases hexg : dictGet ex (field_head g) with
      | none =>
          simp only [hsubg, hexg] at h
          exact ih _ _ _ _ h k hk₂
      | some w =>
          cases w with
          | obj o =>
              cases hp : (dictPop o sub).1 with
              | none =>
                  simp only [hsubg, hexg, hp] at h
                  exact ih _ _ _ _ h k hk₂
              | some v =>
                  cases hpr : dictGet prot (field_head g) with
                  | none =>
                      simp only [hsubg, hexg, hp, hpr] at h
                      rw [ih _ _ _ _ h k hk₂, dictGet_dictSet_ne _ _ hk₁]
                  | some pw =>
                      cases pw with
                      | obj po =>
                          simp only [hsubg, hexg, hp, hpr] at h
                          rw [ih _ _ _ _ h k hk₂, dictGet_dictSet_ne _ _ hk₁]
                      | str s => simp only [hsubg, hexg, hp, hpr] at h; cases h
                      | bool b => simp only [hsubg, hexg, hp, hpr] at h; cases h
                      | num n => simp only [hsubg, hexg, hp, hpr] at h; cases h
                      | arr a => simp only [hsubg, hexg, hp, hpr] at h; cases h
          | str s => simp only [hsubg, hexg] at h; cases h
          | bool b => simp only [hsubg, hexg] at h; cases h
          | num n => simp only [hsubg, hexg] at h; cases h
          | arr a => simp only [hsubg, hexg] at h; cases h
    | none =>
      have hg : field_head g = g := field_head_eq_self hsubg
      cases hp : (dictPop ex g).1 with
      | some v =>
          simp only [hsubg, hp] at h
          rw [ih _ _ _ _ h k hk₂, dictGet_dictSet_ne _ _ (hg ▸ hk₁)]
      | none =>
          simp only [hsubg, hp] at h
          exact ih _ _ _ _ h k hk₂

theorem protect_loop_prot_wf :
    ∀ (fields : List String) (prot ex prot' ex' : Doc),
      protect_loop fields prot ex = .ok (prot', ex') →
      topNodup prot → objValsNodup prot → topNodup ex → objValsNodup ex →
      topNodup prot' ∧ objValsNodup prot' := by
  intro fields
  induction fields with
  | nil =>
    intro prot ex prot' ex' h h₁ h₂ _ _
    rw [protect_loop] at h
    cases h
    exact ⟨h₁, h₂⟩
  | cons g rest ih =>
    intro prot ex prot' ex' h h₁ h₂ h₃ h₄
    rw [protect_loop] at h
    cases hsubg : field_sub g with
    | some sub =>
      cases hexg : dictGet ex (field_head g) with
      | none =>
          simp only [hsubg, hexg] at h
          exact ih _ _ _ _ h h₁ h₂ h₃ h₄
      | some w =>
          cases w with
          | obj o =>
              have hon : topNodup o := h₄ _ _ hexg
              have hex₁n : topNodup (dictSet ex (field_head g) (.obj (dictPop o sub).2)) :=
                topNodup_dictSet h₃
              have hex₁v : objValsNodup
                  (dictSet ex (field_head g) (.obj (dictPop o sub).2)) :=
                objValsNodup_dictSet h₄ (fun o' ho' => by
                  injection ho' with ho₂
                  exact ho₂ ▸ topNodup_dictPop hon)
              cases hp : (dictPop o sub).1 with
              | none =>
                  simp only [hsubg, hexg, hp] at h
                  exact ih _ _ _ _ h h₁ h₂ hex₁n hex₁v
              | some v =>
                  cases hpr : dictGet prot (field_head g) with
                  | none =>
                      simp only [hsubg, hexg, hp, hpr] at h
                      refine ih _ _ _ _ h (topNodup_dictSet h₁) ?_ hex₁n hex₁v
                      exact objValsNodup_dictSet h₂ (fun o' ho' => by
                        injection ho' with ho₂
                        rw [← ho₂]
                        simp [topNodup])
                  | some pw =>
                      cases pw with
                      | obj po =>
                          simp only [hsubg, hexg, hp, hpr] at h
                          refine ih _ _ _ _ h (topNodup_dictSet h₁) ?_ hex₁n hex₁v
                          exact objValsNodup_dictSet h₂ (fun o' ho' => by
                            injection ho' with ho₂
                            exact ho₂ ▸ topNodup_dictSet (h₂ _ _ hpr))
                      | str s => simp only [hsubg, hexg, hp, hpr] at h; cases h
                      | bool b => simp only [hsubg, hexg, hp, hpr] at h; cases h
                      | num n => simp only [hsubg, hexg, hp, hpr] at h; cases h
                      | arr a => simp only [hsubg, hexg, hp, hpr] at h; cases h
          | str s => simp only [hsubg, hexg] at h; cases h
          | bool b => simp only [hsubg, hexg] at h; cases h
          | num n => simp only [hsubg, hexg] at h; cases h
          | arr a => simp only [hsubg, hexg] at h; cases h
    | none =>
      cases hp : (dictPop ex g).1 with
      | some v =>
          simp only [hsubg, hp] at h
          refine ih _ _ _ _ h (topNodup_dictSet h₁) ?_ (topNodup_dictPop h₃)
            (objValsNodup_dictPop h₄ h₃)
          refine objValsNodup_dictSet h₂ (fun o' ho' => ?_)
          subst ho'
          rw [dictPop_fst] at hp
          exact h₄ _ _ hp
      | none =>
          simp only [hsubg, hp] at h
          exact ih _ _ _ _ h h₁ h₂ (topNodup_dictPop h₃) (objValsNodup_dictPop h₄ h₃)

theorem protect_loop_capture :
    ∀ (fields : List String) (prot ex prot' ex' : Doc),
      protect_loop fields prot ex = .ok (prot', ex') →
      (fields.map field_head).Nodup →
      ∀ f ∈ fields, dictGet prot (field_head f) = none →
        (field_sub f = none → ∀ v, dictGet ex f = some v → dictGet prot' f = some v) ∧
        (∀ sub, field_sub f = some sub → ∀ o v,
          dictGet ex (field_head f) = some (.obj o) → dictGet o sub = some v →
          ∃ po, dictGet prot' (field_head f) = some (.obj po) ∧
            dictGet po sub = some v) := by
  intro fields
  induction fields with
  | nil =>
    intro prot ex prot' ex' _ _ f hf
    cases hf
  | cons g rest ih =>
    intro prot ex prot' ex' h hnd f hf hp0
    rw [protect_loop] at h
    simp only [List.map_cons, List.nodup_cons] at hnd
    obtain ⟨hnd₁, hnd₂⟩ := hnd
    rcases List.mem_cons.mp hf with rfl | hfr
    · -- the field being captured is processed at this step
      cases hsubg : field_sub f with
      | some sub =>
        refine ⟨?_, ?_⟩
        · intro hsn
          exact absurd hsn (by simp)
        · intro sub' hs' o v hexo hov
          injection hs' with hs'
          subst hs'
          have hp : (dictPop o sub).1 = some v := by rw [dictPop_fst, hov]
          simp only [hsubg, hexo, hp, hp0] at h
          refine ⟨[(sub, v)], ?_, ?_⟩
          · rw [protect_loop_prot_untouched rest _ _ _ _ h (field_head f) hnd₁,
              dictGet_dictSet_self]
          · simp [dictGet]
      | none =>
        have hg : field_head f = f := field_head_eq_self hsubg
        refine ⟨?_, ?_⟩
        swap
        · intro sub' hs'
          exact absurd hs' (by simp)
        intro _ v hexv
        have hp : (dictPop ex f).1 = some v := by rw [dictPop_fst, hexv]
        simp only [hsubg, hp] at h
        rw [protect_loop_prot_untouched rest _ _ _ _ h f (hg ▸ hnd₁),
          dictGet_dictSet_self]
    · -- the field is processed later in the loop
      have hneff : field_head g ≠ field_head f := by
        intro he
        exact hnd₁ (he ▸ List.mem_map_of_mem field_head hfr)
      cases hsubg : field_sub g with
      | some sub =>
        cases hexg : dictGet ex (field_head g) with
        | none =>
            simp only [hsubg, hexg] at h
            exact ih _ _ _ _ h hnd₂ f hfr hp0
        | some w =>
            cases w with
            | obj o =>
                have hpres : ∀ κ : String, κ ≠ field_head g →
                    dictGet (dictSet ex (field_head g) (.obj (dictPop o sub).2)) κ
                      = dictGet ex κ := fun κ hκ => dictGet_dictSet_ne _ _ hκ
                cases hp : (dictPop o sub).1 with
                | none =>
                    simp only [hsubg, hexg, hp] at h
                    obtain ⟨ihA, ihB⟩ := ih _ _ _ _ h hnd₂ f hfr hp0
                    refine ⟨fun hs v hv => ihA hs v ?_,
                      fun sub' hs o' v ho hov => ihB sub' hs o' v ?_ hov⟩
                    · rw [hpres f (by
                        intro hh
                        exact hneff (by rw [field_head_eq_self hs]; exact hh.symm))]
                      exact hv
                    · rw [hpres (field_head f) (Ne.symm hneff)]
                      exact ho
                | some v =>
                    cases hpr : dictGet prot (field_head g) with
                    | none =>
                        simp only [hsubg, hexg, hp, hpr] at h
                        have hp1 : dictGet (dictSet prot (field_head g)
                            (.obj [(sub, v)])) (field_head f) = none := by
                          rw [dictGet_dictSet_ne _ _ (Ne.symm hneff), hp0]
                        obtain ⟨ihA, ihB⟩ := ih _ _ _ _ h hnd₂ f hfr hp1
                        refine ⟨fun hs v' hv => ihA hs v' ?_,
                          fun sub' hs o' v' ho hov => ihB sub' hs o' v' ?_ hov⟩
                        · rw [hpres f (by
                            intro hh
                            exact hneff (by rw [field_head_eq_self hs]; exact hh.symm))]
                          exact hv
                        · rw [hpres (field_head f) (Ne.symm hneff)]
                          exact ho
                    | some pw =>
                        cases pw with
                        | obj po =>
                            simp only [hsubg, hexg, hp, hpr] at h
                            have hp1 : dictGet (dictSet prot (field_head g)
                                (.obj (dictSet po sub v))) (field_head f) = none := by
                              rw [dictGet_dictSet_ne _ _ (Ne.symm hneff), hp0]
                            obtain ⟨ihA, ihB⟩ := ih _ _ _ _ h hnd₂ f hfr hp1
                            refine ⟨fun hs v' hv => ihA hs v' ?_,
                              fun sub' hs o' v' ho hov => ihB sub' hs o' v' ?_ hov⟩
                            · rw [hpres f (by
                                intro hh
                                exact hneff (by rw [field_head_eq_self hs]; exact hh.symm))]
                              exact hv
                            · rw [hpres (field_head f) (Ne.symm hneff)]
                              exact ho
                        | str s => simp only [hsubg, hexg, hp, hpr] at h; cases h
                        | bool b => simp only [hsubg, hexg, hp, hpr] at h; cases h
                        | num n => simp only [hsubg, hexg, hp, hpr] at h; cases h
                        | arr a => simp only [hsubg, hexg, hp, hpr] at h; cases h
            | str s => simp only [hsubg, hexg] at h; cases h
            | bool b => simp only [hsubg, hexg] at h; cases h
            | num n => simp only [hsubg, hexg] at h; cases h
            | arr a => simp only [hsubg, hexg] at h; cases h
      | none =>
        have hg : field_head g = g := field_head_eq_self hsubg
        have hpres : ∀ κ : String, κ ≠ field_head g →
            dictGet (dictPop ex g).2 κ = dictGet ex κ := fun κ hκ =>
          dictGet_dictPop_ne _ (hg ▸ hκ)
        cases hp : (dictPop ex g).1 with
        | some v =>
            simp only [hsubg, hp] at h
            have hp1 : dictGet (dictSet prot g v) (field_head f) = none := by
              rw [dictGet_dictSet_ne _ _ (hg ▸ Ne.symm hneff), hp0]
            obtain ⟨ihA, ihB⟩ := ih _ _ _ _ h hnd₂ f hfr hp1
            refine ⟨fun hs v' hv => ihA hs v' ?_,
              fun sub' hs o' v' ho hov => ihB sub' hs o' v' ?_ hov⟩
            · rw [hpres f (by
                intro hh
                exact hneff (by rw [field_head_eq_self hs]; exact hh.symm))]
              exact hv
            · rw [hpres (field_head f) (Ne.symm hneff)]
              exact ho
        | none =>
            simp only [hsubg, hp] at h
            obtain ⟨ihA, ihB⟩ := ih _ _ _ _ h hnd₂ f hfr hp0
            refine ⟨fun hs v' hv => ihA hs v' ?_,
              fun sub' hs o' v' ho hov => ihB sub' hs o' v' ?_ hov⟩
            · rw [hpres f (by
                intro hh
                exact hneff (by rw [field_head_eq_self hs]; exact hh.symm))]
              exact hv
            · rw [hpres (field_head f) (Ne.symm hneff)]
              exact ho

theorem restore_protected_untouched :
    ∀ (prot d M : Doc), restore_protected d prot = .ok M →
      ∀ k, k ∉ keys prot → dictGet M k = dictGet d k := by
  intro prot
  induction prot with
  | nil =>
    intro d M h k _
    cases h
    rfl
  | cons p rest ih =>
    intro d M h k hk
    obtain ⟨k₀, v₀⟩ := p
    simp only [keys, List.map_cons, List.mem_cons] at hk
    push_neg at hk
    obtain ⟨hk₁, hk₂⟩ := hk
    cases v₀ with
    | obj o =>
        cases hd : dictGet d k₀ with
        | none =>
            simp only [restore_protected, hd] at h
            rw [ih _ _ h k hk₂, dictGet_dictSet_ne _ _ hk₁]
        | some w =>
            cases w with
            | obj dk =>
                simp only [restore_protected, hd] at h
                rw [ih _ _ h k hk₂, dictGet_dictSet_ne _ _ hk₁]
            | str s => simp only [restore_protected, hd] at h; cases h
            | bool b => simp only [restore_protected, hd] at h; cases h
            | num n => simp only [restore_protected, hd] at h; cases h
            | arr a => simp only [restore_protected, hd] at h; cases h
    | str s =>
        simp only [restore_protected] at h
        rw [ih _ _ h k hk₂, dictGet_dictSet_ne _ _ hk₁]
    | bool b =>
        simp only [restore_protected] at h
        rw [ih _ _ h k hk₂, dictGet_dictSet_ne _ _ hk₁]
    | num n =>
        simp only [restore_protected] at h
        rw [ih _ _ h k hk₂, dictGet_dictSet_ne _ _ hk₁]
    | arr a =>
        simp only [restore_protected] at h
        rw [ih _ _ h k hk₂, dictGet_dictSet_ne _ _ hk₁]

theorem restore_protected_spec :
    ∀ (prot d M : Doc), topNodup prot → restore_protected d prot = .ok M →
      ∀ k v, dictGet prot k = some v →
        (v.isObj = false → dictGet M k = some v) ∧
        (∀ o, v = .obj o → topNodup o → ∀ sk sv, dictGet o sk = some sv →
          ∃ mo, dictGet M k = some (.obj mo) ∧ dictGet mo sk = some sv) := by
  intro prot
  induction prot with
  | nil =>
    intro d M _ _ k v hv
    cases hv
  | cons p rest ih =>
    intro d M hnd h k v hv
    obtain ⟨k₀, v₀⟩ := p
    simp only [topNodup, List.map_cons, List.nodup_cons] at hnd
    obtain ⟨hnd₁, hnd₂⟩ := hnd
    rw [dictGet] at hv
    by_cases hk : k₀ = k
    · subst hk
      rw [if_pos rfl] at hv
      injection hv with hv
      subst hv
      cases v₀ with
      | obj o₀ =>
          refine ⟨?_, ?_⟩
          · intro hio
            exact absurd hio (by simp [JVal.isObj])
          intro o ho hno sk sv hsk
          injection ho with ho
          subst ho
          cases hd : dictGet d k₀ with
          | some w =>
              cases w with
              | obj dk =>
                  simp only [restore_protected, hd] at h
                  rw [restore_protected_untouched rest _ _ h k₀ hnd₁,
                    dictGet_dictSet_self]
                  exact ⟨_, rfl, dictGet_dictUpdate_of_some hno hsk _⟩
              | str s => simp only [restore_protected, hd] at h; cases h
              | bool b => simp only [restore_protected, hd] at h; cases h
              | num n => simp only [restore_protected, hd] at h; cases h
              | arr a => simp only [restore_protected, hd] at h; cases h
          | none =>
              simp only [restore_protected, hd] at h
              rw [restore_protected_untouched rest _ _ h k₀ hnd₁,
                dictGet_dictSet_self]
              exact ⟨_, rfl, hsk⟩
      | str s =>
          refine ⟨?_, ?_⟩
          swap
          · intro o ho
            exact absurd ho (by simp)
          intro _
          simp only [restore_protected] at h
          rw [restore_protected_untouched rest _ _ h k₀ hnd₁, dictGet_dictSet_self]
      | bool b =>
          refine ⟨?_, ?_⟩
          swap
          · intro o ho
            exact absurd ho (by simp)
          intro _
          simp only [restore_protected] at h
          rw [restore_protected_untouched rest _ _ h k₀ hnd₁, dictGet_dictSet_self]
      | num n =>
          refine ⟨?_, ?_⟩
          swap
          · intro o ho
            exact absurd ho (by simp)
          intro _
          simp only [restore_protected] at h
          rw [restore_protected_untouched rest _ _ h k₀ hnd₁, dictGet_dictSet_self]
      | arr a =>
          refine ⟨?_, ?_⟩
          swap
          · intro o ho
            exact absurd ho (by simp)
          intro _
          simp only [restore_protected] at h
          rw [restore_protected_untouched rest _ _ h k₀ hnd₁, dictGet_dictSet_self]
    · rw [if_neg hk] at hv
      cases v₀ with
      | obj o₀ =>
          cases hd : dictGet d k₀ with
          | some w =>
              cases w with
              | obj dk =>
                  simp only [restore_protected, hd] at h
                  exact ih _ _ hnd₂ h k v hv
              | str s => simp only [restore_protected, hd] at h; cases h
              | bool b => simp only [restore_protected, hd] at h; cases h
              | num n => simp only [restore_protected, hd] at h; cases h
              | arr a => simp only [restore_protected, hd] at h; cases h
          | none =>
              simp only [restore_protected, hd] at h
              exact ih _ _ hnd₂ h k v hv
      | str s =>
          simp only [restore_protected] at h
          exact ih _ _ hnd₂ h k v hv
      | bool b =>
          simp only [restore_protected] at h
          exact ih _ _ hnd₂ h k v hv
      | num n =>
          simp only [restore_protected] at h
          exact ih _ _ hnd₂ h k v hv
      | arr a =>
          simp only [restore_protected] at h
          exact ih _ _ hnd₂ h k v hv

theorem update_existing_user_restore (b : Bool) (dflt : String) (C E P M : Doc)
    (h : update_existing_user b dflt C E P = .ok M) :
    ∃ m, restore_protected m P = .ok M := by
  rw [update_existing_user] at h
  repeat
    first
      | exact ⟨_, h⟩
      | cases h
      | split at h
      | simp only [] at h

/-- C3 as amended.  For every field name in the combined protect-list
(CLI `fields_to_protect` plus `customFields.protectedFields`), provided no
two protect entries share the same top-level component: a plain protected
field holding a non-dict value in the pre-merge existing document is
restored exactly onto the document sent to the server; a dot-notation
protected subfield present in the pre-merge document is restored exactly;
and a plain protected field holding a dict value has each of its pre-merge
keys restored — but it is restored with `dict.update`, so candidate-introduced
subkeys under it may survive (the behaviour the counterexample exhibits). -/
theorem protected_fields_C3_amended
    (F : List String) (E C prot E' M : Doc) (b : Bool) (dflt : String)
    (fields : List String)
    (hfields : all_protect_fields F E = .ok fields)
    (hheads : (fields.map field_head).Nodup)
    (hgp : get_protected_fields F E = .ok (prot, E'))
    (hup : update_existing_user b dflt C E' prot = .ok M)
    (hEnd : topNodup E) (hEv : objValsNodup E)
    (f : String) (hf : f ∈ fields) :
    (field_sub f = none → ∀ v, dictGet E f = some v → v.isObj = false →
      dictGet M f = some v) ∧
    (∀ sub, field_sub f = some sub → ∀ o v,
      dictGet E (field_head f) = some (.obj o) → dictGet o sub = some v →
      ∃ mo, dictGet M (field_head f) = some (.obj mo) ∧ dictGet mo sub = some v) ∧
    (field_sub f = none → ∀ o sk sv, dictGet E f = some (.obj o) →
      dictGet o sk = some sv →
      ∃ mo, dictGet M f = some (.obj mo) ∧ dictGet mo sk = some sv) := by
  have hloop : protect_loop fields [] E = .ok (prot, E') := by
    rw [get_protected_fields, hfields] at hgp
    exact hgp
  obtain ⟨hpn, hpv⟩ := protect_loop_prot_wf fields [] E prot E' hloop
    (by simp [topNodup]) (fun k o hko => by rw [dictGet] at hko; cases hko) hEnd hEv
  obtain ⟨hcapA, hcapB⟩ := protect_loop_capture fields [] E prot E' hloop hheads f hf rfl
  obtain ⟨m, hrest⟩ := update_existing_user_restore b dflt C E' prot M hup
  refine ⟨?_, ?_, ?_⟩
  · intro hs v hEf hni
    exact (restore_protected_spec prot m M hpn hrest f v (hcapA hs v hEf)).1 hni
  · intro sub hs o v hEo hov
    obtain ⟨po, hpo, hposub⟩ := hcapB sub hs o v hEo hov
    exact (restore_protected_spec prot m M hpn hrest (field_head f) _ hpo).2 po rfl
      (hpv _ _ hpo) sub v hposub
  · intro hs o sk sv hEf hosk
    exact (restore_protected_spec prot m M hpn hrest f _ (hcapA hs _ hEf)).2 o rfl
      (hEv f o hEf) sk sv hosk

/-- Witness for the amended C3: protecting the plain field `type` restores
its pre-merge value `"staff"` onto the merged document even though the
candidate set `"patron"`. -/
theorem protected_fields_C3_amended_witness :
    (all_protect_fields ["type"]
        [("type", JVal.str "staff"),
          ("personal", JVal.obj [("preferredContactTypeId", JVal.str "002")])]
      = .ok ["", "type"] ∧
      ((["", "type"] : List String).map field_head).Nodup ∧
      get_protected_fields ["type"]
          [("type", JVal.str "staff"),
            ("personal", JVal.obj [("preferredContactTypeId", JVal.str "002")])]
        = .ok ([("type", JVal.str "staff")],
            [("personal", JVal.obj [("preferredContactTypeId", JVal.str "002")])]) ∧
      update_existing_user false "002" [("type", JVal.str "patron")]
          [("personal", JVal.obj [("preferredContactTypeId", JVal.str "002")])]
          [("type", JVal.str "staff")]
        = .ok [("personal", JVal.obj [("preferredContactTypeId", JVal.str "002")]),
            ("type", JVal.str "staff")] ∧
      ("type" : String) ∈ (["", "type"] : List String)) ∧
    ((field_sub "type" = none → ∀ v,
        dictGet [("type", JVal.str "staff"),
          ("personal", JVal.obj [("preferredContactTypeId", JVal.str "002")])] "type"
          = some v → v.isObj = false →
        dictGet [("personal", JVal.obj [("preferredContactTypeId", JVal.str "002")]),
          ("type", JVal.str "staff")] "type" = some v) ∧
      (∀ sub, field_sub "type" = some sub → ∀ o v,
        dictGet [("type", JVal.str "staff"),
          ("personal", JVal.obj [("preferredContactTypeId", JVal.str "002")])]
          (field_head "type") = some (.obj o) → dictGet o sub = some v →
        ∃ mo, dictGet [("personal", JVal.obj [("preferredContactTypeId", JVal.str "002")]),
          ("type", JVal.str "staff")] (field_head "type") = some (.obj mo) ∧
          dictGet mo sub = some v) ∧
      (field_sub "type" = none → ∀ o sk sv,
        dictGet [("type", JVal.str "staff"),
          ("personal", JVal.obj [("preferredContactTypeId", JVal.str "002")])] "type"
          = some (.obj o) → dictGet o sk = some sv →
        ∃ mo, dictGet [("personal", JVal.obj [("preferredContactTypeId", JVal.str "002")]),
          ("type", JVal.str "staff")] "type" = some (.obj mo) ∧
          dictGet mo sk = some sv)) :=
  ⟨⟨rfl, by decide, rfl, rfl, by decide⟩,
    protected_fields_C3_amended ["type"]
      [("type", JVal.str "staff"),
        ("personal", JVal.obj [("preferredContactTypeId", JVal.str "002")])]
      [("type", JVal.str "patron")]
      [("type", JVal.str "staff")]
      [("personal", JVal.obj [("preferredContactTypeId", JVal.str "002")])]
      [("personal", JVal.obj [("preferredContactTypeId", JVal.str "002")]),
        ("type", JVal.str "staff")]
      false "002" ["", "type"] rfl (by decide) rfl rfl
      (by simp [topNodup])
      (by
        intro k o h
        rw [dictGet] at h
        split at h
        · exact absurd h (by simp)
        · rw [dictGet] at h
          split at h
          · injection h with h2
            injection h2 with h3
            rw [← h3]
            simp [topNodup]
          · rw [dictGet] at h
            cases h)
      "type" (by decide)⟩

end FolioDataImport
